import Mathlib

/-
  Verification of the time-tracking core of the claude-terminal repository.

  The Lean definitions below are a shallow embedding of two source modules:
  - the time tracking state module (startTracking, stopTracking, recordActivity,
    recordOutputActivity, the idle / output-grace logic, sleep-wake heartbeat,
    midnight splitting and the startup sanitizer), and
  - the archive service (appendToArchive, loadArchive, the LRU cache).

  Modelling conventions:
  - Timestamps (Date.now values, millisecond epochs) are Int.  The source
    computes every duration as a difference of such timestamps; at millisecond
    scale these are exact integers in JS as well.
  - JS Map objects become association lists with first-match lookup and
    in-place update, mirroring Map.get / Map.set / Map.delete.
  - The event-loop timers (setTimeout / setInterval) are external schedulers;
    the timer callbacks themselves are modelled as functions, and where a
    callback re-arms a timer the requested delay is reified in a result value.
  - The wall clock is an external input: functions that call Date.now in the
    source take the corresponding instant as an explicit argument.
  - The persisted dataset writes performed by saveSession / saveGlobalSession
    are recorded as an append-only log of emitted PersistedSession records;
    the guard on the persistence references is kept (field initDone below).
  - File system operations of the archive service are modelled on the success
    path: the disk is a map from (year, month) to the stored archive value.
-/

set_option autoImplicit false

namespace CT

/-- Association-list lookup with first-match semantics, as JS Map.get. -/
def mapGet {κ α : Type} [DecidableEq κ] : List (κ × α) → κ → Option α
  | [], _ => none
  | e :: rest, k => if e.1 = k then some e.2 else mapGet rest k

/-- Association-list update, as JS Map.set: replace the first matching entry
in place, or append a fresh entry at the end. -/
def mapSet {κ α : Type} [DecidableEq κ] : List (κ × α) → κ → α → List (κ × α)
  | [], k, v => [(k, v)]
  | e :: rest, k, v => if e.1 = k then (k, v) :: rest else e :: mapSet rest k v

/-- Association-list removal, as JS Map.delete (removes the first match). -/
def mapDelete {κ α : Type} [DecidableEq κ] : List (κ × α) → κ → List (κ × α)
  | [], _ => []
  | e :: rest, k => if e.1 = k then rest else e :: mapDelete rest k

/-! Constants of the time tracking module. -/

/-- IDLE_TIMEOUT: 15 minutes in milliseconds. -/
def IDLE_TIMEOUT : Int := 15 * 60 * 1000

/-- OUTPUT_IDLE_TIMEOUT: 2 minutes in milliseconds. -/
def OUTPUT_IDLE_TIMEOUT : Int := 2 * 60 * 1000

/-- SLEEP_GAP_THRESHOLD: 2 minutes in milliseconds. -/
def SLEEP_GAP_THRESHOLD : Int := 2 * 60 * 1000

/-- CHECKPOINT_INTERVAL: 5 minutes in milliseconds. -/
def CHECKPOINT_INTERVAL : Int := 5 * 60 * 1000

/-- One per-project runtime record of the activeSessions map:
sessionStartTime, lastActivityTime and isIdle.  The source stores null or a
Date.now timestamp; presence of the Option models a non-null timestamp (the
stored values are Date.now results or day boundaries, never the falsy 0). -/
structure ProjSession where
  sessionStartTime : Option Int
  lastActivityTime : Option Int
  isIdle : Bool
deriving DecidableEq, Repr

/-- The trackingState value: the per-project map plus the global interval. -/
structure TrackState where
  activeSessions : List (String × ProjSession)
  globalSessionStartTime : Option Int
  globalLastActivityTime : Option Int
  globalIsIdle : Bool
deriving DecidableEq, Repr

/-- A PersistedSession as emitted on interval close: its startTime, endTime
and duration fields (duration = endTime - startTime at every call site). -/
structure EmittedSession where
  startTime : Int
  endTime : Int
  duration : Int
deriving DecidableEq, Repr

/-- The whole module state relevant to the claims: the runtime tracking
state, the module-level mutable variables (lastOutputTimes,
globalLastOutputTime, lastHeartbeat, lastKnownDate), the init guard
(initDone models that projectsStateRef and saveProjectsRef are set), and the
append-only log of PersistedSession records written to the persisted dataset
by saveSession (per project) and saveGlobalSession (global). -/
structure World where
  tracking : TrackState
  lastOutputTimes : List (String × Int)
  globalLastOutputTime : Int
  lastHeartbeat : Int
  lastKnownDate : Option String
  initDone : Bool
  emittedProj : List (String × EmittedSession)
  emittedGlobal : List EmittedSession
deriving DecidableEq, Repr

/-- saveSession: appends one PersistedSession for the given project to the
persisted dataset.  The source first checks the persistence references
(projectsStateRef, saveProjectsRef) and returns without any effect when they
are unset; the month routing and the totalTime / todayTime counter updates
act only on the persisted dataset and are summarised by the emitted log. -/
def saveSession (pid : String) (startTime endTime duration : Int) (w : World) : World :=
  if w.initDone then
    { w with emittedProj := w.emittedProj ++ [(pid, ⟨startTime, endTime, duration⟩)] }
  else w

/-- saveGlobalSession: appends one global PersistedSession to the persisted
dataset, with the same guard on the persistence references. -/
def saveGlobalSession (startTime endTime duration : Int) (w : World) : World :=
  if w.initDone then
    { w with emittedGlobal := w.emittedGlobal ++ [⟨startTime, endTime, duration⟩] }
  else w

/-- getActiveNonIdleCount: number of per-project sessions with a set
sessionStartTime and isIdle false. -/
def getActiveNonIdleCount (w : World) : Nat :=
  (w.tracking.activeSessions.filter
    (fun e => e.2.sessionStartTime.isSome && !e.2.isIdle)).length

/-- getActiveProjectCount: the outbound query; same computation as
getActiveNonIdleCount in the source. -/
def getActiveProjectCount (w : World) : Nat :=
  (w.tracking.activeSessions.filter
    (fun e => e.2.sessionStartTime.isSome && !e.2.isIdle)).length

/-- startGlobalTimer: no-op when the global interval is already running,
otherwise opens the global interval at now.  The idle timer it arms is part
of the external scheduler. -/
def startGlobalTimer (now : Int) (w : World) : World :=
  match w.tracking.globalSessionStartTime, w.tracking.globalIsIdle with
  | some _, false => w
  | _, _ =>
    { w with tracking := { w.tracking with
        globalSessionStartTime := some now,
        globalLastActivityTime := some now,
        globalIsIdle := false } }

/-- pauseGlobalTimer: closes the global interval at now (persisting it when
longer than 1 second) and marks the global interval idle. -/
def pauseGlobalTimer (now : Int) (w : World) : World :=
  match w.tracking.globalSessionStartTime, w.tracking.globalIsIdle with
  | some gst, false =>
    let duration := now - gst
    let w := if duration > 1000 then saveGlobalSession gst now duration w else w
    { w with tracking := { w.tracking with
        globalSessionStartTime := none,
        globalIsIdle := true } }
  | _, _ => w

/-- resumeGlobalTimer: only valid from idle; reopens the global interval. -/
def resumeGlobalTimer (now : Int) (w : World) : World :=
  if !w.tracking.globalIsIdle then w
  else
    { w with tracking := { w.tracking with
        globalSessionStartTime := some now,
        globalLastActivityTime := some now,
        globalIsIdle := false } }

/-- stopGlobalTimer: closes the global interval at now (persisting when
longer than 1 second) and clears the global runtime fields. -/
def stopGlobalTimer (now : Int) (w : World) : World :=
  let w :=
    match w.tracking.globalSessionStartTime, w.tracking.globalIsIdle with
    | some gst, false =>
      let duration := now - gst
      if duration > 1000 then saveGlobalSession gst now duration w else w
    | _, _ => w
  { w with tracking := { w.tracking with
      globalSessionStartTime := none,
      globalLastActivityTime := none,
      globalIsIdle := false } }

/-- resetGlobalIdleTimer: on activity, resumes the global interval when it
was idle, otherwise refreshes globalLastActivityTime while the timer re-arm
is left to the scheduler. -/
def resetGlobalIdleTimer (now : Int) (w : World) : World :=
  if w.tracking.globalIsIdle then resumeGlobalTimer now w
  else if w.tracking.globalSessionStartTime.isSome then
    { w with tracking := { w.tracking with globalLastActivityTime := some now } }
  else w

/-- resumeTracking: only valid from idle; reopens the interval of the
project at now and resumes the global timer when this is the first project
to become active again. -/
def resumeTracking (now : Int) (pid : String) (w : World) : World :=
  match mapGet w.tracking.activeSessions pid with
  | none => w
  | some s =>
    if !s.isIdle then w
    else
      let wasAllIdle := getActiveNonIdleCount w = 0
      let w := { w with tracking := { w.tracking with
          activeSessions := mapSet w.tracking.activeSessions pid
            ⟨some now, some now, false⟩ } }
      if wasAllIdle then resumeGlobalTimer now w else w

/-- startTracking: no-op on a falsy projectId or when already actively
tracked; resumes when idle; otherwise registers a fresh RuntimeInterval and
starts the global timer when this is the first active project. -/
def startTracking (now : Int) (pid : String) (w : World) : World :=
  if pid = "" then w
  else
    let existing := mapGet w.tracking.activeSessions pid
    if (match existing with
        | some s => s.sessionStartTime.isSome && !s.isIdle
        | none => false) then w
    else if (match existing with
        | some s => s.isIdle
        | none => false) then resumeTracking now pid w
    else
      let wasEmpty := getActiveNonIdleCount w = 0
      let w := { w with tracking := { w.tracking with
          activeSessions := mapSet w.tracking.activeSessions pid
            ⟨some now, some now, false⟩ } }
      if wasEmpty then startGlobalTimer now w else w

/-- stopTracking: closes the interval of the project at now (persisting the
portion when longer than 1 second), discards the RuntimeInterval and its
output timestamp, and stops the global timer when no active project is
left. -/
def stopTracking (now : Int) (pid : String) (w : World) : World :=
  match mapGet w.tracking.activeSessions pid with
  | some s =>
    match s.sessionStartTime with
    | some st =>
      let duration := now - st
      let w := if duration > 1000 then saveSession pid st now duration w else w
      let w := { w with
          lastOutputTimes := mapDelete w.lastOutputTimes pid,
          tracking := { w.tracking with
            activeSessions := mapDelete w.tracking.activeSessions pid } }
      if getActiveNonIdleCount w = 0 then stopGlobalTimer now w else w
    | none =>
      { w with tracking := { w.tracking with
          activeSessions := mapDelete w.tracking.activeSessions pid } }
  | none =>
    { w with tracking := { w.tracking with
        activeSessions := mapDelete w.tracking.activeSessions pid } }

/-- recordActivity: starts tracking when the project is untracked, resumes
when idle, otherwise refreshes the idle deadline (scheduler), the global
idle deadline and lastActivityTime. -/
def recordActivity (now : Int) (pid : String) (w : World) : World :=
  if pid = "" then w
  else
    match mapGet w.tracking.activeSessions pid with
    | none => startTracking now pid w
    | some s =>
      if s.isIdle then resumeTracking now pid w
      else
        let w := resetGlobalIdleTimer now w
        { w with tracking := { w.tracking with
            activeSessions := mapSet w.tracking.activeSessions pid
              { s with lastActivityTime := some now } } }

/-- pauseTracking: the idle transition for one project; closes the interval
at now (persisting when longer than 1 second), keeps the RuntimeInterval
with sessionStartTime cleared and isIdle set, and pauses the global timer
when no active project remains. -/
def pauseTracking (now : Int) (pid : String) (w : World) : World :=
  match mapGet w.tracking.activeSessions pid with
  | none => w
  | some s =>
    match s.sessionStartTime, s.isIdle with
    | some st, false =>
      let duration := now - st
      let w := if duration > 1000 then saveSession pid st now duration w else w
      let w := { w with tracking := { w.tracking with
          activeSessions := mapSet w.tracking.activeSessions pid
            { s with sessionStartTime := none, isIdle := true } } }
      if getActiveNonIdleCount w = 0 then pauseGlobalTimer now w else w
    | _, _ => w

/-- Result of an idle-timeout callback: either the callback re-armed itself
with the given delay (milliseconds) or it proceeded to the idle
transition. -/
inductive IdleCheckOutcome where
  | rescheduled (delay : Int)
  | paused
deriving DecidableEq, Repr

/-- checkAndPauseTracking: the 15-minute idle-timeout callback for one
project.  When terminal output was seen less than OUTPUT_IDLE_TIMEOUT ago it
re-arms itself for (OUTPUT_IDLE_TIMEOUT - timeSinceOutput + 100) instead of
pausing; otherwise it performs pauseTracking. -/
def checkAndPauseTracking (now : Int) (pid : String) (w : World) :
    World × IdleCheckOutcome :=
  let lastOutput := (mapGet w.lastOutputTimes pid).getD 0
  let timeSinceOutput := now - lastOutput
  if timeSinceOutput < OUTPUT_IDLE_TIMEOUT then
    (w, .rescheduled (OUTPUT_IDLE_TIMEOUT - timeSinceOutput + 100))
  else
    (pauseTracking now pid w, .paused)

/-- checkAndPauseGlobalTimer: the global idle-timeout callback, with the
same output-grace reschedule against globalLastOutputTime. -/
def checkAndPauseGlobalTimer (now : Int) (w : World) :
    World × IdleCheckOutcome :=
  let timeSinceOutput := now - w.globalLastOutputTime
  if timeSinceOutput < OUTPUT_IDLE_TIMEOUT then
    (w, .rescheduled (OUTPUT_IDLE_TIMEOUT - timeSinceOutput + 100))
  else
    (pauseGlobalTimer now w, .paused)

/-- recordOutputActivity: records the terminal-output timestamp for a
project whose interval is currently active (non-idle); no-op otherwise.  It
never touches the trackingState value. -/
def recordOutputActivity (now : Int) (pid : String) (w : World) : World :=
  if pid = "" then w
  else
    match mapGet w.tracking.activeSessions pid with
    | none => w
    | some s =>
      if s.isIdle then w
      else
        { w with
            lastOutputTimes := mapSet w.lastOutputTimes pid now,
            globalLastOutputTime := now }

/-- The per-project loop body shared by handleSleepWake and
splitSessionsAtMidnight: every entry with a set sessionStartTime and isIdle
false is cut at cutTs (persisting the portion when longer than 1 second) and
re-registered with sessionStartTime = newStart and lastActivityTime =
newLastAct.  The source iterates the copied Map and sets only the visited
key, which this fold renders. -/
def boundaryLoop (cutTs newStart newLastAct : Int) :
    World → List (String × ProjSession) → World
  | w, [] => w
  | w, (pid, s) :: rest =>
    match s.sessionStartTime, s.isIdle with
    | some st, false =>
      let duration := cutTs - st
      let w := if duration > 1000 then saveSession pid st cutTs duration w else w
      let w := { w with tracking := { w.tracking with
          activeSessions := mapSet w.tracking.activeSessions pid
            { s with sessionStartTime := some newStart,
                     lastActivityTime := some newLastAct } } }
      boundaryLoop cutTs newStart newLastAct w rest
    | _, _ => boundaryLoop cutTs newStart newLastAct w rest

/-- handleSleepWake: cuts the global interval and every active project
interval at sleepStart (the last heartbeat) and reopens each of them at
wakeTime. -/
def handleSleepWake (sleepStart wakeTime : Int) (w : World) : World :=
  let w :=
    match w.tracking.globalSessionStartTime, w.tracking.globalIsIdle with
    | some gst, false =>
      let duration := sleepStart - gst
      let w := if duration > 1000 then saveGlobalSession gst sleepStart duration w else w
      { w with tracking := { w.tracking with
          globalSessionStartTime := some wakeTime,
          globalLastActivityTime := some wakeTime } }
    | _, _ => w
  boundaryLoop sleepStart wakeTime wakeTime w w.tracking.activeSessions

/-- checkSleepWake: the 30-second heartbeat callback.  now is the tick
instant; when the gap since the previous heartbeat exceeds
SLEEP_GAP_THRESHOLD the system infers sleep and splits the sessions at the
old heartbeat (now - elapsed equals the previous lastHeartbeat). -/
def checkSleepWake (now : Int) (w : World) : World :=
  let elapsed := now - w.lastHeartbeat
  let w := { w with lastHeartbeat := now }
  if elapsed > SLEEP_GAP_THRESHOLD then
    handleSleepWake (now - elapsed) now w
  else w

/-- splitSessionsAtMidnight: cuts the global interval and every active
project interval at midnightTs (start of the current local day, computed
from the wall clock in the source) and reopens each of them starting at
midnightTs; lastActivityTime of the reopened intervals is set from now (the
tick instant) for the global and project entries as in the source. -/
def splitSessionsAtMidnight (midnightTs now : Int) (w : World) : World :=
  let w :=
    match w.tracking.globalSessionStartTime, w.tracking.globalIsIdle with
    | some gst, false =>
      let duration := midnightTs - gst
      let w := if duration > 1000 then saveGlobalSession gst midnightTs duration w else w
      { w with tracking := { w.tracking with
          globalSessionStartTime := some midnightTs,
          globalLastActivityTime := some now } }
    | _, _ => w
  boundaryLoop midnightTs midnightTs now w w.tracking.activeSessions

/-- checkMidnightReset: the 30-second midnight-check callback.  today is the
current local date string, midnightTs the local-midnight timestamp of that
date and now the tick instant (all read from the wall clock in the source).
On an observed date change the active sessions are split at midnight.  The
month-boundary archival that may follow acts on the persisted dataset and is
modelled in the archive section. -/
def checkMidnightReset (today : String) (midnightTs now : Int) (w : World) : World :=
  match w.lastKnownDate with
  | none => w
  | some d =>
    if d ≠ today then
      splitSessionsAtMidnight midnightTs now { w with lastKnownDate := some today }
    else w

/-- An interleaving of the signals relevant to the output-grace claim:
terminal output records and runs of the idle-timeout callback, each carrying
the instant at which it happens. -/
inductive TrackEvent where
  | output (t : Int)
  | idleCheck (t : Int)
deriving DecidableEq, Repr

/-- One event applied to the world for a fixed project. -/
def stepEvent (pid : String) (w : World) (e : TrackEvent) : World :=
  match e with
  | .output t => recordOutputActivity t pid w
  | .idleCheck t => (checkAndPauseTracking t pid w).1

/-- A run of events for a fixed project. -/
def runEvents (pid : String) (w : World) (evs : List TrackEvent) : World :=
  evs.foldl (stepEvent pid) w

/-- Freshness of output at every idle check of an event list: cur is the
last recorded output instant so far; every idleCheck at t must see output
younger than OUTPUT_IDLE_TIMEOUT. -/
def checksFresh (cur : Int) : List TrackEvent → Bool
  | [] => true
  | .output t :: rest => checksFresh t rest
  | .idleCheck t :: rest =>
    decide (t - cur < OUTPUT_IDLE_TIMEOUT) && checksFresh cur rest

/-- The module state right after initTimeTracking on an empty dataset: no
runtime sessions, persistence references set. -/
def initWorld : World :=
  { tracking := { activeSessions := [], globalSessionStartTime := none,
                  globalLastActivityTime := none, globalIsIdle := false },
    lastOutputTimes := [], globalLastOutputTime := 0, lastHeartbeat := 0,
    lastKnownDate := none, initDone := true,
    emittedProj := [], emittedGlobal := [] }

/-- The module state before initTimeTracking: as initWorld but with the
persistence references unset. -/
def uninitWorld : World :=
  { initWorld with initDone := false }

/-! Archive service model.  Archives are keyed by (year, month) with month
the 0-based JS month index; both the cache key (YYYY-MM) and the filename
(lowercase month name plus year) used in the source are injective encodings
of that pair, so the pair itself serves as the key here. -/

/-- A session record stored in an archive file: the serialised
PersistedSession fields. -/
structure ASession where
  id : String
  startTime : String
  endTime : String
  duration : Int
deriving DecidableEq, Repr

/-- One projectSessions entry of an archive: projectName and the sessions of
that project. -/
structure ProjEntry where
  projectName : String
  sessions : List ASession
deriving DecidableEq, Repr

/-- pad to two digits, as String.padStart(2, "0") on a decimal rendering. -/
def pad2 (n : Nat) : String :=
  if n < 10 then "0" ++ toString n else toString n

/-- getCacheKey: the YYYY-MM key string of a (year, 0-based month) pair. -/
def getCacheKey (year month : Nat) : String :=
  toString year ++ "-" ++ pad2 (month + 1)

/-- The monthly archive document. -/
structure Archive where
  version : Nat
  month : String
  createdAt : String
  lastModifiedAt : String
  globalSessions : List ASession
  projectSessions : List (String × ProjEntry)
deriving DecidableEq, Repr

/-- createEmptyArchive, with nowIso the current Date toISOString value. -/
def createEmptyArchive (year month : Nat) (nowIso : String) : Archive :=
  { version := 1, month := getCacheKey year month,
    createdAt := nowIso, lastModifiedAt := nowIso,
    globalSessions := [], projectSessions := [] }

/-- The id-based dedup push of appendToArchive: the set of existing ids is
computed once before the loop, then every incoming session whose id is not
in that set is pushed (duplicated ids inside the incoming list are therefore
all pushed). -/
def dedupAppend (existing incoming : List ASession) : List ASession :=
  let existingIds := existing.map (fun s => s.id)
  existing ++ incoming.filter (fun s => decide (s.id ∉ existingIds))

/-- The per-project merge step of appendToArchive for one entry of the
projectSessionsMap: create the entry when absent (projectName defaulting to
Unknown on a falsy name), dedup-push the sessions, then overwrite the
projectName when the incoming one is truthy. -/
def mergeProjEntry (acc : List (String × ProjEntry)) (pe : String × ProjEntry) :
    List (String × ProjEntry) :=
  let pid := pe.1
  let data := pe.2
  let acc :=
    if (mapGet acc pid).isNone then
      mapSet acc pid
        { projectName := if data.projectName ≠ "" then data.projectName else "Unknown",
          sessions := [] }
    else acc
  let current := (mapGet acc pid).getD { projectName := "Unknown", sessions := [] }
  let merged := { current with sessions := dedupAppend current.sessions data.sessions }
  let merged :=
    if data.projectName ≠ "" then { merged with projectName := data.projectName }
    else merged
  mapSet acc pid merged

/-- One cached archive with its load instant (Date.now at load). -/
structure CacheEntry where
  data : Archive
  loadedAt : Int
deriving DecidableEq, Repr

/-- MAX_CACHE_SIZE of the archive LRU cache. -/
def MAX_CACHE_SIZE : Nat := 3

/-- The archive store: the on-disk files (success-path file system, keyed by
year and 0-based month) and the in-memory cache. -/
structure ArchiveStore where
  disk : List ((Nat × Nat) × Archive)
  cache : List ((Nat × Nat) × CacheEntry)
deriving DecidableEq, Repr

/-- The eviction scan of loadArchive: the key of the cache entry with the
smallest loadedAt (first wins on ties, starting from Infinity). -/
def oldestCacheKey (cache : List ((Nat × Nat) × CacheEntry)) : Option (Nat × Nat) :=
  (cache.foldl
    (fun (acc : Option ((Nat × Nat) × Int)) e =>
      match acc with
      | none => some (e.1, e.2.loadedAt)
      | some (k, t) =>
        if e.2.loadedAt < t then some (e.1, e.2.loadedAt) else some (k, t))
    none).map (fun p => p.1)

/-- loadArchive: serve from the cache when present; otherwise read the disk,
and on a hit insert into the cache, evicting the entry with the oldest load
instant when the cache is full.  A missing file yields none, never an
error. -/
def loadArchive (year month : Nat) (now : Int) (st : ArchiveStore) :
    Option Archive × ArchiveStore :=
  let key := (year, month)
  match mapGet st.cache key with
  | some entry => (some entry.data, st)
  | none =>
    match mapGet st.disk key with
    | some data =>
      let cache :=
        if st.cache.length ≥ MAX_CACHE_SIZE then
          match oldestCacheKey st.cache with
          | some k => mapDelete st.cache k
          | none => st.cache
        else st.cache
      (some data, { st with cache := mapSet cache key ⟨data, now⟩ })
    | none => (none, st)

/-- appendToArchive: read the archive for the month fresh from disk
(bypassing the cache), create an empty structure when absent, merge the
incoming global sessions and per-project sessions with id-based dedup,
stamp lastModifiedAt, write atomically (success path of the temp-file
rename) and invalidate the cache entry of that month. -/
def appendToArchive (year month : Nat) (globalSessions : List ASession)
    (projectSessionsMap : List (String × ProjEntry)) (nowIso : String)
    (st : ArchiveStore) : ArchiveStore :=
  let key := (year, month)
  let archive := (mapGet st.disk key).getD (createEmptyArchive year month nowIso)
  let archive :=
    if globalSessions.length > 0 then
      { archive with globalSessions := dedupAppend archive.globalSessions globalSessions }
    else archive
  let archive :=
    { archive with projectSessions :=
        projectSessionsMap.foldl mergeProjEntry archive.projectSessions }
  let archive := { archive with lastModifiedAt := nowIso }
  { st with
      disk := mapSet st.disk key archive,
      cache := mapDelete st.cache key }

/-- Ids of a session list. -/
def sessionIds (l : List ASession) : List String :=
  l.map (fun s => s.id)

/-- The archive invariant: no duplicate session id within globalSessions nor
within the session list of any project entry. -/
def ArchiveInv (a : Archive) : Prop :=
  (sessionIds a.globalSessions).Nodup ∧
    ∀ e ∈ a.projectSessions, (sessionIds e.2.sessions).Nodup

/-! Sanitizer model.  JS numbers reaching the sanitizer are millisecond
counters: finite integral values, NaN or an infinity; comparisons follow the
JS semantics (every comparison with NaN is false). -/

/-- A JS number as the sanitizer distinguishes them. -/
inductive JsNum where
  | nan
  | inf
  | ninf
  | int (n : Int)
deriving DecidableEq, Repr

/-- Number.isFinite. -/
def JsNum.isFinite : JsNum → Bool
  | .int _ => true
  | _ => false

/-- JS strict less-than on numbers. -/
def JsNum.lt : JsNum → JsNum → Bool
  | .nan, _ => false
  | _, .nan => false
  | .ninf, .ninf => false
  | .ninf, _ => true
  | _, .ninf => false
  | .inf, _ => false
  | .int _, .inf => true
  | .int m, .int n => decide (m < n)

/-- JS less-or-equal on numbers. -/
def JsNum.le : JsNum → JsNum → Bool
  | .nan, _ => false
  | _, .nan => false
  | .ninf, _ => true
  | _, .ninf => false
  | _, .inf => true
  | .inf, _ => false
  | .int m, .int n => decide (m ≤ n)

/-- maxReasonableDuration: 24 hours in milliseconds. -/
def maxReasonableDuration : Int := 24 * 60 * 60 * 1000

/-- A stored session record as the sanitizer sees it: the startTime and
endTime fields as stored strings (none for an absent or null field) and the
duration as a JS number. -/
structure RawSession where
  id : String
  startTime : Option String
  endTime : Option String
  duration : JsNum
deriving DecidableEq, Repr

/-- JS truthiness of an optional string field. -/
def strTruthy : Option String → Bool
  | some s => s ≠ ""
  | none => false

/-- The session filter of sanitizeTimeTrackingData, identical for project
and global session lists.  parseDate models new Date(str).getTime (none for
NaN); a null array element is dropped by the leading truthiness check. -/
def validSession (parseDate : String → Option Int) (s : Option RawSession) : Bool :=
  match s with
  | none => false
  | some s =>
    if !strTruthy s.startTime || !strTruthy s.endTime then false
    else if !s.duration.isFinite || s.duration.le (.int 0) then false
    else if (JsNum.int maxReasonableDuration).lt s.duration then false
    else
      match parseDate (s.startTime.getD ""), parseDate (s.endTime.getD "") with
      | some st, some en => decide (st ≤ en)
      | _, _ => false

/-- ProjectTimeTracking as stored: counters, lastActiveDate and the sessions
array (none when the stored field is not an array). -/
structure ProjectTracking where
  totalTime : JsNum
  todayTime : JsNum
  lastActiveDate : Option String
  sessions : Option (List (Option RawSession))
deriving DecidableEq, Repr

/-- A project record of the live dataset. -/
structure Project where
  id : String
  name : String
  timeTracking : Option ProjectTracking
deriving DecidableEq, Repr

/-- GlobalTimeTracking as stored. -/
structure GlobalTracking where
  totalTime : JsNum
  todayTime : JsNum
  weekTime : JsNum
  monthTime : JsNum
  lastActiveDate : Option String
  weekStart : Option String
  monthStart : Option String
  sessions : Option (List (Option RawSession))
deriving DecidableEq, Repr

/-- The live dataset the sanitizer runs against. -/
structure Dataset where
  projects : List Project
  globalTimeTracking : Option GlobalTracking
deriving DecidableEq, Repr

/-- The per-project pass of sanitizeTimeTrackingData: clamp non-finite or
negative totalTime and todayTime to 0, null out a lastActiveDate more than
one day in the future (zeroing todayTime), and filter the sessions (a
non-array sessions field becomes the empty list).  now is Date.now; the
needsSave bookkeeping of the source only gates the write-back and does not
change the resulting value. -/
def sanitizeTracking (parseDate : String → Option Int) (now : Int)
    (t : ProjectTracking) : ProjectTracking :=
  let t :=
    if !t.totalTime.isFinite || t.totalTime.lt (.int 0) then
      { t with totalTime := .int 0 }
    else t
  let t :=
    if !t.todayTime.isFinite || t.todayTime.lt (.int 0) then
      { t with todayTime := .int 0 }
    else t
  let t :=
    if strTruthy t.lastActiveDate then
      match parseDate (t.lastActiveDate.getD "" ++ "T00:00:00") with
      | some ts =>
        if ts > now + 86400000 then
          { t with lastActiveDate := none, todayTime := .int 0 }
        else t
      | none => t
    else t
  match t.sessions with
  | some ss => { t with sessions := some (ss.filter (validSession parseDate)) }
  | none => { t with sessions := some [] }

/-- The global pass of sanitizeTimeTrackingData: clamp the four counters and
filter the sessions.  The source has no future-lastActiveDate check in this
block. -/
def sanitizeGlobal (parseDate : String → Option Int) (g : GlobalTracking) :
    GlobalTracking :=
  let g :=
    if !g.totalTime.isFinite || g.totalTime.lt (.int 0) then
      { g with totalTime := .int 0 }
    else g
  let g :=
    if !g.todayTime.isFinite || g.todayTime.lt (.int 0) then
      { g with todayTime := .int 0 }
    else g
  let g :=
    if !g.weekTime.isFinite || g.weekTime.lt (.int 0) then
      { g with weekTime := .int 0 }
    else g
  let g :=
    if !g.monthTime.isFinite || g.monthTime.lt (.int 0) then
      { g with monthTime := .int 0 }
    else g
  match g.sessions with
  | some ss => { g with sessions := some (ss.filter (validSession parseDate)) }
  | none => { g with sessions := some [] }

/-- sanitizeTimeTrackingData over the live dataset: each project with a
timeTracking record gets the per-project pass, the global record gets the
global pass. -/
def sanitizeTimeTrackingData (parseDate : String → Option Int) (now : Int)
    (ds : Dataset) : Dataset :=
  { projects := ds.projects.map (fun p =>
      match p.timeTracking with
      | none => p
      | some t => { p with timeTracking := some (sanitizeTracking parseDate now t) }),
    globalTimeTracking := ds.globalTimeTracking.map (sanitizeGlobal parseDate) }

/-- The runtime state after startTracking of project A at tA followed by
startTracking of project B at tB from the freshly initialised module: both
intervals registered and the global interval opened at tA. -/
def afterTwoStarts (tA tB : Int) : World :=
  { tracking := { activeSessions := [("A", ⟨some tA, some tA, false⟩),
                                     ("B", ⟨some tB, some tB, false⟩)],
                  globalSessionStartTime := some tA,
                  globalLastActivityTime := some tA,
                  globalIsIdle := false },
    lastOutputTimes := [], globalLastOutputTime := 0, lastHeartbeat := 0,
    lastKnownDate := none, initDone := true,
    emittedProj := [], emittedGlobal := [] }

/-- A world with project p active since 1000 and terminal output last seen
at 70000 (both per project and globally). -/
def witC4World : World :=
  { tracking := { activeSessions := [("p", ⟨some 1000, some 1000, false⟩)],
                  globalSessionStartTime := some 1000,
                  globalLastActivityTime := some 1000,
                  globalIsIdle := false },
    lastOutputTimes := [("p", 70000)], globalLastOutputTime := 70000,
    lastHeartbeat := 0, lastKnownDate := none, initDone := true,
    emittedProj := [], emittedGlobal := [] }

/-! Helper lemmas: association lists. -/

theorem mapGet_set_self {κ α : Type} [DecidableEq κ] (m : List (κ × α)) (k : κ) (v : α) :
    mapGet (mapSet m k v) k = some v := by
  induction m with
  | nil => simp [mapGet, mapSet]
  | cons e rest ih =>
    by_cases h : e.1 = k <;> simp [mapGet, mapSet, h, ih]

theorem mapGet_set_ne {κ α : Type} [DecidableEq κ] (m : List (κ × α)) (k k' : κ) (v : α)
    (h : k' ≠ k) : mapGet (mapSet m k v) k' = mapGet m k' := by
  have h' : ¬(k = k') := fun hc => h hc.symm
  induction m with
  | nil => simp [mapGet, mapSet, h']
  | cons e rest ih =>
    by_cases he : e.1 = k
    · subst he
      simp [mapGet, mapSet, h']
    · by_cases he' : e.1 = k'
      · simp only [mapSet]
        rw [if_neg he]
        simp [mapGet, he']
      · simp [mapGet, mapSet, he, he', ih]

theorem mapGet_eq_none_iff {κ α : Type} [DecidableEq κ] (m : List (κ × α)) (k : κ) :
    mapGet m k = none ↔ k ∉ m.map Prod.fst := by
  induction m with
  | nil => simp [mapGet]
  | cons e rest ih =>
    by_cases he : e.1 = k
    · simp [mapGet, he]
    · simp only [mapGet, if_neg he]
      rw [ih]
      simp only [List.map_cons, List.mem_cons, not_or]
      constructor
      · exact fun hk => ⟨fun hc => he hc.symm, hk⟩
      · exact fun hk => hk.2

theorem mapGet_delete_self {κ α : Type} [DecidableEq κ] (m : List (κ × α)) (k : κ)
    (h : (m.map Prod.fst).Nodup) : mapGet (mapDelete m k) k = none := by
  rw [mapGet_eq_none_iff]
  induction m with
  | nil => simp [mapDelete]
  | cons e rest ih =>
    simp only [List.map_cons, List.nodup_cons] at h
    by_cases he : e.1 = k
    · subst he
      simp only [mapDelete, if_pos rfl]
      exact h.1
    · simp only [mapDelete, if_neg he, List.map_cons, List.mem_cons]
      rintro (hc | hc)
      · exact he hc.symm
      · exact ih h.2 hc

theorem mapGet_mem {κ α : Type} [DecidableEq κ] {m : List (κ × α)} {k : κ} {v : α}
    (h : mapGet m k = some v) : (k, v) ∈ m := by
  induction m with
  | nil => simp [mapGet] at h
  | cons e rest ih =>
    by_cases he : e.1 = k
    · obtain ⟨e1, e2⟩ := e
      simp only [mapGet] at h
      rw [if_pos he] at h
      injection h with h2
      subst he h2
      exact List.mem_cons_self _ _
    · simp only [mapGet, if_neg he] at h
      exact List.mem_cons_of_mem _ (ih h)

/-! Helper lemmas: projections of the save primitives. -/

@[simp]
theorem saveSession_tracking (pid : String) (a b c : Int) (w : World) :
    (saveSession pid a b c w).tracking = w.tracking := by
  unfold saveSession
  split <;> rfl

@[simp]
theorem saveSession_initDone (pid : String) (a b c : Int) (w : World) :
    (saveSession pid a b c w).initDone = w.initDone := by
  unfold saveSession
  split <;> rfl

@[simp]
theorem saveSession_emittedGlobal (pid : String) (a b c : Int) (w : World) :
    (saveSession pid a b c w).emittedGlobal = w.emittedGlobal := by
  unfold saveSession
  split <;> rfl

@[simp]
theorem saveSession_lastOutputTimes (pid : String) (a b c : Int) (w : World) :
    (saveSession pid a b c w).lastOutputTimes = w.lastOutputTimes := by
  unfold saveSession
  split <;> rfl

theorem saveSession_emittedProj_init (pid : String) (a b c : Int) (w : World)
    (h : w.initDone = true) :
    (saveSession pid a b c w).emittedProj = w.emittedProj ++ [(pid, ⟨a, b, c⟩)] := by
  unfold saveSession
  rw [if_pos h]

theorem saveSession_not_init (pid : String) (a b c : Int) (w : World)
    (h : w.initDone = false) : saveSession pid a b c w = w := by
  unfold saveSession
  rw [h]
  rfl

theorem mem_saveSession_emittedProj {x : String × EmittedSession}
    (pid : String) (a b c : Int) (w : World) (h : x ∈ w.emittedProj) :
    x ∈ (saveSession pid a b c w).emittedProj := by
  unfold saveSession
  split
  · exact List.mem_append_left _ h
  · exact h

@[simp]
theorem saveGlobalSession_tracking (a b c : Int) (w : World) :
    (saveGlobalSession a b c w).tracking = w.tracking := by
  unfold saveGlobalSession
  split <;> rfl

@[simp]
theorem saveGlobalSession_initDone (a b c : Int) (w : World) :
    (saveGlobalSession a b c w).initDone = w.initDone := by
  unfold saveGlobalSession
  split <;> rfl

@[simp]
theorem saveGlobalSession_emittedProj (a b c : Int) (w : World) :
    (saveGlobalSession a b c w).emittedProj = w.emittedProj := by
  unfold saveGlobalSession
  split <;> rfl

@[simp]
theorem saveGlobalSession_lastOutputTimes (a b c : Int) (w : World) :
    (saveGlobalSession a b c w).lastOutputTimes = w.lastOutputTimes := by
  unfold saveGlobalSession
  split <;> rfl

theorem saveGlobalSession_emittedGlobal_init (a b c : Int) (w : World)
    (h : w.initDone = true) :
    (saveGlobalSession a b c w).emittedGlobal = w.emittedGlobal ++ [⟨a, b, c⟩] := by
  unfold saveGlobalSession
  rw [if_pos h]

theorem saveGlobalSession_not_init (a b c : Int) (w : World)
    (h : w.initDone = false) : saveGlobalSession a b c w = w := by
  unfold saveGlobalSession
  rw [h]
  rfl

/-! Helper lemmas: the shared boundary loop. -/

theorem boundaryLoop_initDone (c ns nl : Int) (es : List (String × ProjSession))
    (w : World) : (boundaryLoop c ns nl w es).initDone = w.initDone := by
  induction es generalizing w with
  | nil => rfl
  | cons e rest ih =>
    obtain ⟨pid, s⟩ := e
    unfold boundaryLoop
    match hs : s.sessionStartTime, hi : s.isIdle with
    | some st, false =>
      rw [ih]
      split <;> simp
    | some st, true => exact ih _
    | none, _ => exact ih _

theorem boundaryLoop_emittedGlobal (c ns nl : Int) (es : List (String × ProjSession))
    (w : World) : (boundaryLoop c ns nl w es).emittedGlobal = w.emittedGlobal := by
  induction es generalizing w with
  | nil => rfl
  | cons e rest ih =>
    obtain ⟨pid, s⟩ := e
    unfold boundaryLoop
    match hs : s.sessionStartTime, hi : s.isIdle with
    | some st, false =>
      rw [ih]
      split <;> simp
    | some st, true => exact ih _
    | none, _ => exact ih _

theorem boundaryLoop_globalFields (c ns nl : Int) (es : List (String × ProjSession))
    (w : World) :
    (boundaryLoop c ns nl w es).tracking.globalSessionStartTime
        = w.tracking.globalSessionStartTime ∧
      (boundaryLoop c ns nl w es).tracking.globalIsIdle = w.tracking.globalIsIdle ∧
      (boundaryLoop c ns nl w es).tracking.globalLastActivityTime
        = w.tracking.globalLastActivityTime := by
  induction es generalizing w with
  | nil => exact ⟨rfl, rfl, rfl⟩
  | cons e rest ih =>
    obtain ⟨pid, s⟩ := e
    unfold boundaryLoop
    match hs : s.sessionStartTime, hi : s.isIdle with
    | some st, false =>
      refine ⟨?_, ?_, ?_⟩
      · rw [(ih _).1]
        split <;> simp
      · rw [(ih _).2.1]
        split <;> simp
      · rw [(ih _).2.2]
        split <;> simp
    | some st, true => exact ih _
    | none, _ => exact ih _

theorem boundaryLoop_emittedProj_mono (c ns nl : Int)
    (es : List (String × ProjSession)) (w : World) {x : String × EmittedSession}
    (h : x ∈ w.emittedProj) : x ∈ (boundaryLoop c ns nl w es).emittedProj := by
  induction es generalizing w with
  | nil => exact h
  | cons e rest ih =>
    obtain ⟨pid, s⟩ := e
    unfold boundaryLoop
    match hs : s.sessionStartTime, hi : s.isIdle with
    | some st, false =>
      apply ih
      split
      · exact mem_saveSession_emittedProj _ _ _ _ _ h
      · exact h
    | some st, true => exact ih _ h
    | none, _ => exact ih _ h

theorem boundaryLoop_emits (c ns nl : Int) {es : List (String × ProjSession)}
    {pid : String} {s : ProjSession} {st : Int} (w : World)
    (hInit : w.initDone = true) (hmem : (pid, s) ∈ es)
    (hst : s.sessionStartTime = some st) (hidle : s.isIdle = false)
    (hdur : c - st > 1000) :
    (pid, (⟨st, c, c - st⟩ : EmittedSession))
      ∈ (boundaryLoop c ns nl w es).emittedProj := by
  induction es generalizing w with
  | nil => simp at hmem
  | cons e rest ih =>
    rcases List.mem_cons.mp hmem with he | he
    · subst he
      unfold boundaryLoop
      rw [hst, hidle] at *
      simp only
      rw [if_pos hdur]
      apply boundaryLoop_emittedProj_mono
      simp only [saveSession_emittedProj_init _ _ _ _ _ hInit]
      exact List.mem_append_right _ (by simp)
    · obtain ⟨pid', s'⟩ := e
      unfold boundaryLoop
      match hs : s'.sessionStartTime, hi : s'.isIdle with
      | some st', false =>
        apply ih _ _ he
        split <;> simp [hInit]
      | some st', true => exact ih _ hInit he
      | none, _ => exact ih _ hInit he

theorem boundaryLoop_get_notin (c ns nl : Int) {es : List (String × ProjSession)}
    {pid : String} (w : World) (h : pid ∉ es.map Prod.fst) :
    mapGet (boundaryLoop c ns nl w es).tracking.activeSessions pid
      = mapGet w.tracking.activeSessions pid := by
  induction es generalizing w with
  | nil => rfl
  | cons e rest ih =>
    obtain ⟨pid', s'⟩ := e
    simp only [List.map_cons, List.mem_cons, not_or] at h
    unfold boundaryLoop
    match hs : s'.sessionStartTime, hi : s'.isIdle with
    | some st', false =>
      rw [ih _ h.2]
      simp only [mapGet_set_ne _ _ _ _ h.1]
      split <;> simp
    | some st', true => exact ih _ h.2
    | none, _ => exact ih _ h.2

theorem boundaryLoop_get_active (c ns nl : Int) {es : List (String × ProjSession)}
    {pid : String} {s : ProjSession} {st : Int} (w : World)
    (hnd : (es.map Prod.fst).Nodup) (hmem : (pid, s) ∈ es)
    (hst : s.sessionStartTime = some st) (hidle : s.isIdle = false) :
    mapGet (boundaryLoop c ns nl w es).tracking.activeSessions pid
      = some { s with sessionStartTime := some ns, lastActivityTime := some nl } := by
  induction es generalizing w with
  | nil => simp at hmem
  | cons e rest ih =>
    simp only [List.map_cons, List.nodup_cons] at hnd
    rcases List.mem_cons.mp hmem with he | he
    · subst he
      unfold boundaryLoop
      rw [hst, hidle]
      simp only
      rw [boundaryLoop_get_notin _ _ _ _ hnd.1]
      exact mapGet_set_self _ _ _
    · obtain ⟨pid', s'⟩ := e
      unfold boundaryLoop
      match hs : s'.sessionStartTime, hi : s'.isIdle with
      | some st', false => exact ih _ hnd.2 he
      | some st', true => exact ih _ hnd.2 he
      | none, _ => exact ih _ hnd.2 he

/-! Concrete worlds used by counterexamples and witnesses. -/

/-- A world with one project interval opened 500 ms before midnight
(midnight of day two of the epoch is 86400000) and no global interval. -/
def ceWorldMidnight : World :=
  { initWorld with
      tracking := { activeSessions := [("p", ⟨some 86399500, some 86399500, false⟩)],
                    globalSessionStartTime := none, globalLastActivityTime := none,
                    globalIsIdle := false },
      lastKnownDate := some "1970-01-01" }

/-- A world with one project interval and the global interval both open
since instant 1000 of the epoch. -/
def witWorldMidnight : World :=
  { initWorld with
      tracking := { activeSessions := [("p", ⟨some 1000, some 1000, false⟩)],
                    globalSessionStartTime := some 1000,
                    globalLastActivityTime := some 1000,
                    globalIsIdle := false },
      lastKnownDate := some "1970-01-01" }

/-- Claim C1, amended: when the midnight-check tick observes a date change,
every interval (per-entity and global) that is active is closed exactly at
the local-midnight timestamp with a PersistedSession for the span from
sessionStart to midnight — provided that span exceeds the 1-second
persistence guard — and reopened with sessionStart = midnight, so the
emitted session and the reopened interval meet exactly at midnight and the
durations of the two parts sum to the undivided duration. -/
theorem c1_midnight_split (today : String) (midnightTs now : Int) (w : World)
    (d : String) (pid : String) (s : ProjSession) (st gst : Int)
    (hdate : w.lastKnownDate = some d) (hne : d ≠ today)
    (hInit : w.initDone = true)
    (hnd : (w.tracking.activeSessions.map Prod.fst).Nodup)
    (hget : mapGet w.tracking.activeSessions pid = some s)
    (hst : s.sessionStartTime = some st) (hidle : s.isIdle = false)
    (hdur : midnightTs - st > 1000)
    (hgst : w.tracking.globalSessionStartTime = some gst)
    (hgidle : w.tracking.globalIsIdle = false)
    (hgdur : midnightTs - gst > 1000) :
    (pid, (⟨st, midnightTs, midnightTs - st⟩ : EmittedSession))
        ∈ (checkMidnightReset today midnightTs now w).emittedProj ∧
      mapGet (checkMidnightReset today midnightTs now w).tracking.activeSessions pid
        = some { s with sessionStartTime := some midnightTs,
                        lastActivityTime := some now } ∧
      (⟨gst, midnightTs, midnightTs - gst⟩ : EmittedSession)
        ∈ (checkMidnightReset today midnightTs now w).emittedGlobal ∧
      (checkMidnightReset today midnightTs now w).tracking.globalSessionStartTime
        = some midnightTs ∧
      st + (midnightTs - st) = midnightTs ∧ gst + (midnightTs - gst) = midnightTs := by
  have hsplit : checkMidnightReset today midnightTs now w
      = splitSessionsAtMidnight midnightTs now { w with lastKnownDate := some today } := by
    unfold checkMidnightReset
    rw [hdate]
    simp [hne]
  rw [hsplit]
  set w2 : World := { w with lastKnownDate := some today } with hw2
  have h2gst : w2.tracking.globalSessionStartTime = some gst := hgst
  have h2gidle : w2.tracking.globalIsIdle = false := hgidle
  have hsplit2 : splitSessionsAtMidnight midnightTs now w2
      = boundaryLoop midnightTs midnightTs now
          { saveGlobalSession gst midnightTs (midnightTs - gst) w2 with
              tracking := { (saveGlobalSession gst midnightTs (midnightTs - gst) w2).tracking with
                globalSessionStartTime := some midnightTs,
                globalLastActivityTime := some now } }
          w2.tracking.activeSessions := by
    unfold splitSessionsAtMidnight
    rw [h2gst, h2gidle]
    simp only [if_pos hgdur, saveGlobalSession_tracking]
  rw [hsplit2]
  set wg : World :=
    { saveGlobalSession gst midnightTs (midnightTs - gst) w2 with
        tracking := { (saveGlobalSession gst midnightTs (midnightTs - gst) w2).tracking with
          globalSessionStartTime := some midnightTs,
          globalLastActivityTime := some now } } with hwg
  have hgInit : wg.initDone = true := by
    simp [hwg, hInit]
  have hgActive : wg.tracking.activeSessions = w.tracking.activeSessions := by
    simp [hwg]
  refine ⟨?_, ?_, ?_, ?_, by omega, by omega⟩
  · exact boundaryLoop_emits _ _ _ _ hgInit (mapGet_mem hget) hst hidle hdur
  · rw [← hgActive]
    exact boundaryLoop_get_active _ _ _ _ (by rw [hgActive]; exact hnd)
      (by rw [hgActive]; exact mapGet_mem hget) hst hidle
  · rw [boundaryLoop_emittedGlobal]
    have h2Init : w2.initDone = true := hInit
    have : wg.emittedGlobal = w.emittedGlobal ++ [⟨gst, midnightTs, midnightTs - gst⟩] := by
      simp only [hwg]
      rw [saveGlobalSession_emittedGlobal_init _ _ _ _ h2Init]
    rw [this]
    exact List.mem_append_right _ (by simp)
  · exact (boundaryLoop_globalFields _ _ _ _ _).1

/-- Claim C1, counterexample to the unamended claim: an interval opened 500
ms before midnight is active when the tick observes the date change, yet no
PersistedSession is emitted for it (the splitter only reopens it at
midnight), because of the 1-second guard on persistence. -/
theorem c1_midnight_split_counterexample :
    mapGet ceWorldMidnight.tracking.activeSessions "p"
        = some ⟨some 86399500, some 86399500, false⟩ ∧
      ceWorldMidnight.initDone = true ∧
      (checkMidnightReset "1970-01-02" 86400000 86400200 ceWorldMidnight).emittedProj = [] ∧
      mapGet (checkMidnightReset "1970-01-02" 86400000 86400200
          ceWorldMidnight).tracking.activeSessions "p"
        = some ⟨some 86400000, some 86400200, false⟩ := by
  refine ⟨by decide, by decide, by decide, by decide⟩

/-- Claim C1, witness: the amended theorem applied to a concrete world with
an interval and the global timer open since instant 1000 and a midnight
split at 86400000. -/
theorem c1_midnight_split_witness :
    ("p", (⟨1000, 86400000, 86399000⟩ : EmittedSession))
        ∈ (checkMidnightReset "1970-01-02" 86400000 86400300
            witWorldMidnight).emittedProj ∧
      mapGet (checkMidnightReset "1970-01-02" 86400000 86400300
          witWorldMidnight).tracking.activeSessions "p"
        = some ⟨some 86400000, some 86400300, false⟩ ∧
      (⟨1000, 86400000, 86399000⟩ : EmittedSession)
        ∈ (checkMidnightReset "1970-01-02" 86400000 86400300
            witWorldMidnight).emittedGlobal ∧
      (checkMidnightReset "1970-01-02" 86400000 86400300
          witWorldMidnight).tracking.globalSessionStartTime = some 86400000 ∧
      (1000 : Int) + (86400000 - 1000) = 86400000 ∧
      (1000 : Int) + (86400000 - 1000) = 86400000 :=
  c1_midnight_split "1970-01-02" 86400000 86400300 witWorldMidnight
    "1970-01-01" "p" ⟨some 1000, some 1000, false⟩ 1000 1000
    rfl (by decide) rfl (by decide) rfl rfl rfl (by decide) rfl rfl (by decide)

/-- A world with one project interval opened 500 ms before the last
heartbeat at 100000, no global interval. -/
def ceWorldSleep : World :=
  { initWorld with
      tracking := { activeSessions := [("p", ⟨some 99500, some 99500, false⟩)],
                    globalSessionStartTime := none, globalLastActivityTime := none,
                    globalIsIdle := false },
      lastHeartbeat := 100000 }

/-- A world with a project interval and the global interval open since 1000
and the last heartbeat at 200000. -/
def witWorldSleep : World :=
  { initWorld with
      tracking := { activeSessions := [("p", ⟨some 1000, some 1000, false⟩)],
                    globalSessionStartTime := some 1000,
                    globalLastActivityTime := some 1000,
                    globalIsIdle := false },
      lastHeartbeat := 200000 }

/-- Claim C2, amended: when a heartbeat tick at t2 sees a gap over the
2-minute sleep threshold since the previous heartbeat t1, every active
interval (per-entity and global) is closed at t1 — with a PersistedSession
for the span from sessionStart to t1, provided that span exceeds the
1-second persistence guard — and reopened with sessionStart = t2, so none of
the gap from t1 to t2 is counted as active time. -/
theorem c2_sleep_wake (t2 : Int) (w : World) (pid : String) (s : ProjSession)
    (t1 st gst : Int)
    (hhb : w.lastHeartbeat = t1)
    (hgap : t2 - t1 > SLEEP_GAP_THRESHOLD)
    (hInit : w.initDone = true)
    (hnd : (w.tracking.activeSessions.map Prod.fst).Nodup)
    (hget : mapGet w.tracking.activeSessions pid = some s)
    (hst : s.sessionStartTime = some st) (hidle : s.isIdle = false)
    (hdur : t1 - st > 1000)
    (hgst : w.tracking.globalSessionStartTime = some gst)
    (hgidle : w.tracking.globalIsIdle = false)
    (hgdur : t1 - gst > 1000) :
    (pid, (⟨st, t1, t1 - st⟩ : EmittedSession))
        ∈ (checkSleepWake t2 w).emittedProj ∧
      mapGet (checkSleepWake t2 w).tracking.activeSessions pid
        = some { s with sessionStartTime := some t2, lastActivityTime := some t2 } ∧
      (⟨gst, t1, t1 - gst⟩ : EmittedSession) ∈ (checkSleepWake t2 w).emittedGlobal ∧
      (checkSleepWake t2 w).tracking.globalSessionStartTime = some t2 ∧
      st + (t1 - st) = t1 ∧ gst + (t1 - gst) = t1 := by
  have hstep : checkSleepWake t2 w
      = handleSleepWake t1 t2 { w with lastHeartbeat := t2 } := by
    unfold checkSleepWake
    rw [hhb, if_pos hgap]
    have harg : t2 - (t2 - t1) = t1 := by omega
    rw [harg]
  rw [hstep]
  set w2 : World := { w with lastHeartbeat := t2 } with hw2
  have h2gst : w2.tracking.globalSessionStartTime = some gst := hgst
  have h2gidle : w2.tracking.globalIsIdle = false := hgidle
  have h2Init : w2.initDone = true := hInit
  have hsplit2 : handleSleepWake t1 t2 w2
      = boundaryLoop t1 t2 t2
          { saveGlobalSession gst t1 (t1 - gst) w2 with
              tracking := { (saveGlobalSession gst t1 (t1 - gst) w2).tracking with
                globalSessionStartTime := some t2,
                globalLastActivityTime := some t2 } }
          w2.tracking.activeSessions := by
    unfold handleSleepWake
    rw [h2gst, h2gidle]
    simp only [if_pos hgdur, saveGlobalSession_tracking]
  rw [hsplit2]
  set wg : World :=
    { saveGlobalSession gst t1 (t1 - gst) w2 with
        tracking := { (saveGlobalSession gst t1 (t1 - gst) w2).tracking with
          globalSessionStartTime := some t2,
          globalLastActivityTime := some t2 } } with hwg
  have hgInit : wg.initDone = true := by
    simp [hwg, hInit]
  have hgActive : wg.tracking.activeSessions = w.tracking.activeSessions := by
    simp [hwg]
  refine ⟨?_, ?_, ?_, ?_, by omega, by omega⟩
  · exact boundaryLoop_emits _ _ _ _ hgInit (mapGet_mem hget) hst hidle hdur
  · rw [← hgActive]
    exact boundaryLoop_get_active _ _ _ _ (by rw [hgActive]; exact hnd)
      (by rw [hgActive]; exact mapGet_mem hget) hst hidle
  · rw [boundaryLoop_emittedGlobal]
    have : wg.emittedGlobal = w.emittedGlobal ++ [⟨gst, t1, t1 - gst⟩] := by
      simp only [hwg]
      rw [saveGlobalSession_emittedGlobal_init _ _ _ _ h2Init]
    rw [this]
    exact List.mem_append_right _ (by simp)
  · exact (boundaryLoop_globalFields _ _ _ _ _).1

/-- Claim C2, counterexample to the unamended claim: a project interval
opened 500 ms before the last-awake heartbeat t1 = 100000 is active when the
tick at t2 = 400000 detects the sleep gap, yet no PersistedSession covering
[sessionStart, t1] is emitted (the interval is only reopened at t2), because
of the 1-second persistence guard. -/
theorem c2_sleep_wake_counterexample :
    mapGet ceWorldSleep.tracking.activeSessions "p"
        = some ⟨some 99500, some 99500, false⟩ ∧
      ceWorldSleep.lastHeartbeat = 100000 ∧
      ceWorldSleep.initDone = true ∧
      (400000 : Int) - 100000 > SLEEP_GAP_THRESHOLD ∧
      (checkSleepWake 400000 ceWorldSleep).emittedProj = [] ∧
      mapGet (checkSleepWake 400000 ceWorldSleep).tracking.activeSessions "p"
        = some ⟨some 400000, some 400000, false⟩ := by
  refine ⟨by decide, by decide, by decide, by decide, by decide, by decide⟩

/-- Claim C2, witness: the amended theorem applied to a concrete world with
both intervals open since 1000, a last heartbeat at t1 = 200000 and a wake
tick at t2 = 400000. -/
theorem c2_sleep_wake_witness :
    ("p", (⟨1000, 200000, 199000⟩ : EmittedSession))
        ∈ (checkSleepWake 400000 witWorldSleep).emittedProj ∧
      mapGet (checkSleepWake 400000 witWorldSleep).tracking.activeSessions "p"
        = some ⟨some 400000, some 400000, false⟩ ∧
      (⟨1000, 200000, 199000⟩ : EmittedSession)
        ∈ (checkSleepWake 400000 witWorldSleep).emittedGlobal ∧
      (checkSleepWake 400000 witWorldSleep).tracking.globalSessionStartTime
        = some 400000 ∧
      (1000 : Int) + (200000 - 1000) = 200000 ∧
      (1000 : Int) + (200000 - 1000) = 200000 :=
  c2_sleep_wake 400000 witWorldSleep "p" ⟨some 1000, some 1000, false⟩
    200000 1000 1000 rfl (by decide) rfl (by decide) rfl rfl rfl (by decide)
    rfl rfl (by decide)

/-- Claim C3, amended: starting A then B gives an active count of 2 with the
global interval started at the start instant of A (not restarted by B);
stopping A leaves the global interval running; stopping B (the last active
project) closes the global interval and emits a PersistedSession for its
trailing portion, provided that portion exceeds the 1-second persistence
guard. -/
theorem c3_concurrent_entities (tA tB tC tD : Int) (hD : 1000 < tD - tA) :
    getActiveProjectCount (startTracking tB "B" (startTracking tA "A" initWorld)) = 2 ∧
      (startTracking tB "B" (startTracking tA "A"
          initWorld)).tracking.globalSessionStartTime = some tA ∧
      (stopTracking tC "A" (startTracking tB "B" (startTracking tA "A"
          initWorld))).tracking.globalSessionStartTime = some tA ∧
      (stopTracking tC "A" (startTracking tB "B" (startTracking tA "A"
          initWorld))).tracking.globalIsIdle = false ∧
      (stopTracking tD "B" (stopTracking tC "A" (startTracking tB "B"
          (startTracking tA "A" initWorld)))).tracking.globalSessionStartTime = none ∧
      (⟨tA, tD, tD - tA⟩ : EmittedSession)
        ∈ (stopTracking tD "B" (stopTracking tC "A" (startTracking tB "B"
            (startTracking tA "A" initWorld)))).emittedGlobal := by
  have h2 : startTracking tB "B" (startTracking tA "A" initWorld)
      = afterTwoStarts tA tB := rfl
  rw [h2]
  by_cases hC : (1000 : Int) < tC - tA <;> by_cases hB : (1000 : Int) < tD - tB <;>
    refine ⟨rfl, rfl, ?_, ?_, ?_, ?_⟩ <;>
      simp [afterTwoStarts, stopTracking, saveSession, stopGlobalTimer,
        saveGlobalSession, mapGet, mapDelete, getActiveNonIdleCount, hC, hB, hD]

/-- Claim C3, counterexample to the unamended claim: with all four events
within 300 ms, stopping B does close the global interval, but no
PersistedSession is emitted for the trailing portion, because of the
1-second persistence guard. -/
theorem c3_concurrent_entities_counterexample :
    getActiveProjectCount (startTracking 10100 "B" (startTracking 10000 "A" initWorld)) = 2 ∧
      (startTracking 10100 "B" (startTracking 10000 "A"
          initWorld)).tracking.globalSessionStartTime = some 10000 ∧
      (stopTracking 10200 "A" (startTracking 10100 "B" (startTracking 10000 "A"
          initWorld))).tracking.globalSessionStartTime = some 10000 ∧
      (stopTracking 10300 "B" (stopTracking 10200 "A" (startTracking 10100 "B"
          (startTracking 10000 "A" initWorld)))).tracking.globalSessionStartTime = none ∧
      (stopTracking 10300 "B" (stopTracking 10200 "A" (startTracking 10100 "B"
          (startTracking 10000 "A" initWorld)))).emittedGlobal = [] := by
  refine ⟨by decide, by decide, by decide, by decide, by decide⟩

/-- Claim C3, witness: the amended theorem at tA = 10000, tB = 20000,
tC = 30000, tD = 50000. -/
theorem c3_concurrent_entities_witness :
    getActiveProjectCount (startTracking 20000 "B" (startTracking 10000 "A" initWorld)) = 2 ∧
      (startTracking 20000 "B" (startTracking 10000 "A"
          initWorld)).tracking.globalSessionStartTime = some 10000 ∧
      (stopTracking 30000 "A" (startTracking 20000 "B" (startTracking 10000 "A"
          initWorld))).tracking.globalSessionStartTime = some 10000 ∧
      (stopTracking 30000 "A" (startTracking 20000 "B" (startTracking 10000 "A"
          initWorld))).tracking.globalIsIdle = false ∧
      (stopTracking 50000 "B" (stopTracking 30000 "A" (startTracking 20000 "B"
          (startTracking 10000 "A" initWorld)))).tracking.globalSessionStartTime = none ∧
      (⟨10000, 50000, 40000⟩ : EmittedSession)
        ∈ (stopTracking 50000 "B" (stopTracking 30000 "A" (startTracking 20000 "B"
            (startTracking 10000 "A" initWorld)))).emittedGlobal := by
  have h := c3_concurrent_entities 10000 20000 30000 50000 (by decide)
  simpa using h

/-! Helper lemmas for the output-grace claim. -/

theorem recordOutputActivity_active (now : Int) (pid : String) (w : World)
    (s : ProjSession) (hpid : pid ≠ "")
    (hget : mapGet w.tracking.activeSessions pid = some s)
    (hidle : s.isIdle = false) :
    recordOutputActivity now pid w
      = { w with lastOutputTimes := mapSet w.lastOutputTimes pid now,
                 globalLastOutputTime := now } := by
  unfold recordOutputActivity
  rw [if_neg hpid, hget]
  simp [hidle]

theorem checkAndPauseTracking_fresh (now : Int) (pid : String) (w : World) (cur : Int)
    (hcur : (mapGet w.lastOutputTimes pid).getD 0 = cur)
    (hfresh : now - cur < OUTPUT_IDLE_TIMEOUT) :
    checkAndPauseTracking now pid w
      = (w, .rescheduled (OUTPUT_IDLE_TIMEOUT - (now - cur) + 100)) := by
  unfold checkAndPauseTracking
  rw [hcur, if_pos hfresh]

theorem runEvents_fresh (pid : String) (hpid : pid ≠ "") :
    ∀ (evs : List TrackEvent) (w : World) (s : ProjSession) (cur : Int),
    mapGet w.tracking.activeSessions pid = some s → s.isIdle = false →
    (mapGet w.lastOutputTimes pid).getD 0 = cur → checksFresh cur evs = true →
    (runEvents pid w evs).tracking = w.tracking := by
  intro evs
  induction evs with
  | nil => intro w s cur _ _ _ _; rfl
  | cons e rest ih =>
    intro w s cur hget hidle hcur hfresh
    match e with
    | .output t =>
      have hstep : stepEvent pid w (.output t)
          = { w with lastOutputTimes := mapSet w.lastOutputTimes pid t,
                     globalLastOutputTime := t } :=
        recordOutputActivity_active t pid w s hpid hget hidle
      have hrun : runEvents pid w (.output t :: rest)
          = runEvents pid (stepEvent pid w (.output t)) rest := rfl
      rw [hrun, hstep]
      have hfresh' : checksFresh t rest = true := hfresh
      exact ih _ s t hget hidle (by simp [mapGet_set_self]) hfresh'
    | .idleCheck t =>
      have hf : (decide (t - cur < OUTPUT_IDLE_TIMEOUT) && checksFresh cur rest) = true :=
        hfresh
      rw [Bool.and_eq_true] at hf
      have hstep : stepEvent pid w (.idleCheck t) = w := by
        show (checkAndPauseTracking t pid w).1 = w
        rw [checkAndPauseTracking_fresh t pid w cur hcur (of_decide_eq_true hf.1)]
      have hrun : runEvents pid w (.idleCheck t :: rest)
          = runEvents pid (stepEvent pid w (.idleCheck t)) rest := rfl
      rw [hrun, hstep]
      exact ih _ s cur hget hidle hcur hf.2

theorem pauseGlobalTimer_activeSessions (now : Int) (w : World) :
    (pauseGlobalTimer now w).tracking.activeSessions = w.tracking.activeSessions := by
  unfold pauseGlobalTimer
  split
  · dsimp only
    split <;> simp
  · rfl

theorem pauseTracking_get (now : Int) (pid : String) (w : World)
    (s : ProjSession) (st : Int)
    (hget : mapGet w.tracking.activeSessions pid = some s)
    (hst : s.sessionStartTime = some st) (hidle : s.isIdle = false) :
    mapGet (pauseTracking now pid w).tracking.activeSessions pid
      = some { s with sessionStartTime := none, isIdle := true } := by
  unfold pauseTracking
  rw [hget]
  simp only [hst, hidle]
  split <;> split <;>
    simp [pauseGlobalTimer_activeSessions, mapGet_set_self]

/-- Claim C4: whenever the idle-timeout callback runs with the last recorded
output under 2 minutes old, the state is untouched and the callback is
re-armed for (2 min − elapsed-since-output) + 100 ms (per project and for
the global timer); the idle transition is taken only when output is at
least 2 minutes stale; consequently, over any run of output records and
idle checks in which every check sees output younger than 2 minutes, the
tracking state is unchanged and the interval stays active. -/
theorem c4_output_grace :
    (∀ (now : Int) (pid : String) (w : World) (cur : Int),
        (mapGet w.lastOutputTimes pid).getD 0 = cur →
        now - cur < OUTPUT_IDLE_TIMEOUT →
        checkAndPauseTracking now pid w
          = (w, .rescheduled (OUTPUT_IDLE_TIMEOUT - (now - cur) + 100))) ∧
      (∀ (now : Int) (w : World),
        now - w.globalLastOutputTime < OUTPUT_IDLE_TIMEOUT →
        checkAndPauseGlobalTimer now w
          = (w, .rescheduled (OUTPUT_IDLE_TIMEOUT - (now - w.globalLastOutputTime) + 100))) ∧
      (∀ (now : Int) (pid : String) (w : World) (s : ProjSession) (st : Int),
        ¬(now - (mapGet w.lastOutputTimes pid).getD 0 < OUTPUT_IDLE_TIMEOUT) →
        mapGet w.tracking.activeSessions pid = some s →
        s.sessionStartTime = some st → s.isIdle = false →
        checkAndPauseTracking now pid w = (pauseTracking now pid w, .paused) ∧
          mapGet (pauseTracking now pid w).tracking.activeSessions pid
            = some { s with sessionStartTime := none, isIdle := true }) ∧
      (∀ (pid : String) (evs : List TrackEvent) (w : World) (s : ProjSession) (cur : Int),
        pid ≠ "" → mapGet w.tracking.activeSessions pid = some s →
        s.isIdle = false →
        (mapGet w.lastOutputTimes pid).getD 0 = cur → checksFresh cur evs = true →
        (runEvents pid w evs).tracking = w.tracking ∧
          mapGet (runEvents pid w evs).tracking.activeSessions pid = some s) := by
  refine ⟨?_, ?_, ?_, ?_⟩
  · exact fun now pid w cur hcur hfresh =>
      checkAndPauseTracking_fresh now pid w cur hcur hfresh
  · intro now w hfresh
    unfold checkAndPauseGlobalTimer
    rw [if_pos hfresh]
  · intro now pid w s st hstale hget hst hidle
    constructor
    · unfold checkAndPauseTracking
      rw [if_neg hstale]
    · exact pauseTracking_get now pid w s st hget hst hidle
  · intro pid evs w s cur hpid hget hidle hcur hfresh
    have h := runEvents_fresh pid hpid evs w s cur hget hidle hcur hfresh
    exact ⟨h, by rw [h]; exact hget⟩

/-- Claim C4, witness: a concrete check with output 30 s old reschedules for
90100 ms; the global check likewise; a check with output 2 min stale pauses
and marks the interval idle; a run of outputs every 90 s with interleaved
idle checks leaves the interval active. -/
theorem c4_output_grace_witness :
    (checkAndPauseTracking 100000 "p" witC4World
        = (witC4World, IdleCheckOutcome.rescheduled 90100)) ∧
      (checkAndPauseGlobalTimer 100000 witC4World
        = (witC4World, IdleCheckOutcome.rescheduled 90100)) ∧
      (checkAndPauseTracking 190000 "p" witC4World
          = (pauseTracking 190000 "p" witC4World, IdleCheckOutcome.paused) ∧
        mapGet (pauseTracking 190000 "p" witC4World).tracking.activeSessions "p"
          = some ⟨none, some 1000, true⟩) ∧
      ((runEvents "p" witC4World
            [.output 90000, .idleCheck 100000, .output 180000, .idleCheck 190000]).tracking
          = witC4World.tracking ∧
        mapGet (runEvents "p" witC4World
            [.output 90000, .idleCheck 100000, .output 180000,
              .idleCheck 190000]).tracking.activeSessions "p"
          = some ⟨some 1000, some 1000, false⟩) := by
  refine ⟨?_, ?_, ?_, ?_⟩
  · exact c4_output_grace.1 100000 "p" witC4World 70000 (by decide) (by decide)
  · exact c4_output_grace.2.1 100000 witC4World (by decide)
  · exact c4_output_grace.2.2.1 190000 "p" witC4World ⟨some 1000, some 1000, false⟩
      1000 (by decide) (by decide) rfl rfl
  · exact c4_output_grace.2.2.2 "p"
      [.output 90000, .idleCheck 100000, .output 180000, .idleCheck 190000]
      witC4World ⟨some 1000, some 1000, false⟩ 70000 (by decide) (by decide) rfl
      (by decide) (by decide)

/-- Claim C5: recordOutputActivity changes nothing besides the recorded
output timestamps — it never touches the tracking state (so never any
sessionStart, lastActivity or idle flag, per-entity or global) nor the
persisted dataset; and when every interval the project might have is idle
(or the project is untracked) it has no effect at all, so it never resumes
an idle entity. -/
theorem c5_record_output_frame :
    (∀ (now : Int) (pid : String) (w : World),
        (recordOutputActivity now pid w).tracking = w.tracking ∧
          (recordOutputActivity now pid w).emittedProj = w.emittedProj ∧
          (recordOutputActivity now pid w).emittedGlobal = w.emittedGlobal ∧
          (recordOutputActivity now pid w).initDone = w.initDone ∧
          (recordOutputActivity now pid w).lastHeartbeat = w.lastHeartbeat ∧
          (recordOutputActivity now pid w).lastKnownDate = w.lastKnownDate) ∧
      (∀ (now : Int) (pid : String) (w : World),
        (∀ s, mapGet w.tracking.activeSessions pid = some s → s.isIdle = true) →
        recordOutputActivity now pid w = w) := by
  constructor
  · intro now pid w
    unfold recordOutputActivity
    repeat' split
    all_goals exact ⟨rfl, rfl, rfl, rfl, rfl, rfl⟩
  · intro now pid w hidle
    unfold recordOutputActivity
    split
    · rfl
    · split
      · rfl
      · rename_i s heq
        rw [hidle s heq]
        simp

/-- Claim C5, witness: a concrete output record on an active project leaves
every non-output field unchanged, and one on an untracked project id is a
complete no-op. -/
theorem c5_record_output_frame_witness :
    ((recordOutputActivity 80000 "p" witC4World).tracking = witC4World.tracking ∧
        (recordOutputActivity 80000 "p" witC4World).emittedProj = witC4World.emittedProj ∧
        (recordOutputActivity 80000 "p" witC4World).emittedGlobal = witC4World.emittedGlobal ∧
        (recordOutputActivity 80000 "p" witC4World).initDone = witC4World.initDone ∧
        (recordOutputActivity 80000 "p" witC4World).lastHeartbeat = witC4World.lastHeartbeat ∧
        (recordOutputActivity 80000 "p" witC4World).lastKnownDate = witC4World.lastKnownDate) ∧
      recordOutputActivity 80000 "x" witC4World = witC4World :=
  ⟨c5_record_output_frame.1 80000 "p" witC4World,
    c5_record_output_frame.2 80000 "x" witC4World
      (by intro s hs; simp [mapGet, witC4World] at hs)⟩

/-! Helper lemmas: no tracker operation appends to the persisted dataset
before the persistence references are set. -/

theorem startGlobalTimer_emits (now : Int) (w : World) :
    (startGlobalTimer now w).emittedProj = w.emittedProj ∧
      (startGlobalTimer now w).emittedGlobal = w.emittedGlobal := by
  unfold startGlobalTimer
  split <;> exact ⟨rfl, rfl⟩

theorem resumeGlobalTimer_emits (now : Int) (w : World) :
    (resumeGlobalTimer now w).emittedProj = w.emittedProj ∧
      (resumeGlobalTimer now w).emittedGlobal = w.emittedGlobal := by
  unfold resumeGlobalTimer
  split <;> exact ⟨rfl, rfl⟩

theorem resetGlobalIdleTimer_emits (now : Int) (w : World) :
    (resetGlobalIdleTimer now w).emittedProj = w.emittedProj ∧
      (resetGlobalIdleTimer now w).emittedGlobal = w.emittedGlobal := by
  unfold resetGlobalIdleTimer
  split
  · exact resumeGlobalTimer_emits now w
  · split <;> exact ⟨rfl, rfl⟩

theorem resumeTracking_emits (now : Int) (pid : String) (w : World) :
    (resumeTracking now pid w).emittedProj = w.emittedProj ∧
      (resumeTracking now pid w).emittedGlobal = w.emittedGlobal := by
  unfold resumeTracking
  split
  · exact ⟨rfl, rfl⟩
  · split
    · exact ⟨rfl, rfl⟩
    · dsimp only
      split
      · constructor
        · rw [(resumeGlobalTimer_emits _ _).1]
        · rw [(resumeGlobalTimer_emits _ _).2]
      · exact ⟨rfl, rfl⟩

theorem startTracking_emits (now : Int) (pid : String) (w : World) :
    (startTracking now pid w).emittedProj = w.emittedProj ∧
      (startTracking now pid w).emittedGlobal = w.emittedGlobal := by
  unfold startTracking
  split
  · exact ⟨rfl, rfl⟩
  · dsimp only
    split
    · exact ⟨rfl, rfl⟩
    · split
      · exact resumeTracking_emits now pid w
      · split
        · constructor
          · rw [(startGlobalTimer_emits _ _).1]
          · rw [(startGlobalTimer_emits _ _).2]
        · exact ⟨rfl, rfl⟩

theorem recordActivity_emits (now : Int) (pid : String) (w : World) :
    (recordActivity now pid w).emittedProj = w.emittedProj ∧
      (recordActivity now pid w).emittedGlobal = w.emittedGlobal := by
  unfold recordActivity
  split
  · exact ⟨rfl, rfl⟩
  · split
    · exact startTracking_emits now pid w
    · split
      · exact resumeTracking_emits now pid w
      · dsimp only
        exact ⟨(resetGlobalIdleTimer_emits now w).1, (resetGlobalIdleTimer_emits now w).2⟩

theorem stopGlobalTimer_emits_not_init (now : Int) (w : World)
    (h : w.initDone = false) :
    (stopGlobalTimer now w).emittedProj = w.emittedProj ∧
      (stopGlobalTimer now w).emittedGlobal = w.emittedGlobal := by
  unfold stopGlobalTimer
  dsimp only
  split
  · split
    · rw [saveGlobalSession_not_init _ _ _ _ h]
      exact ⟨rfl, rfl⟩
    · exact ⟨rfl, rfl⟩
  · exact ⟨rfl, rfl⟩

theorem stopTail_emits_not_init (now : Int) (w0 w2 : World)
    (h2 : w2.initDone = false)
    (hp : w2.emittedProj = w0.emittedProj)
    (hg : w2.emittedGlobal = w0.emittedGlobal) :
    (if getActiveNonIdleCount w2 = 0 then stopGlobalTimer now w2
      else w2).emittedProj = w0.emittedProj ∧
      (if getActiveNonIdleCount w2 = 0 then stopGlobalTimer now w2
        else w2).emittedGlobal = w0.emittedGlobal := by
  split
  · exact ⟨((stopGlobalTimer_emits_not_init now w2 h2).1).trans hp,
           ((stopGlobalTimer_emits_not_init now w2 h2).2).trans hg⟩
  · exact ⟨hp, hg⟩

theorem stopTracking_emits_not_init (now : Int) (pid : String) (w : World)
    (h : w.initDone = false) :
    (stopTracking now pid w).emittedProj = w.emittedProj ∧
      (stopTracking now pid w).emittedGlobal = w.emittedGlobal := by
  unfold stopTracking
  split
  · split
    · dsimp only
      split
      · rw [saveSession_not_init _ _ _ _ _ h]
        apply stopTail_emits_not_init
        · exact h
        · rfl
        · rfl
      · apply stopTail_emits_not_init
        · exact h
        · rfl
        · rfl
    · exact ⟨rfl, rfl⟩
  · exact ⟨rfl, rfl⟩

/-- Claim C10, amended: each of the four tracker operations invoked before
init raises no error (every operation is a total function of the state) and
leaves the persisted dataset unchanged — no PersistedSession is appended,
per-project or global; the in-memory runtime tracking state may however
change (startTracking, for example, registers the interval). -/
theorem c10_preinit_no_persist (now : Int) (pid : String) (w : World)
    (h : w.initDone = false) :
    ((startTracking now pid w).emittedProj = w.emittedProj ∧
        (startTracking now pid w).emittedGlobal = w.emittedGlobal) ∧
      ((stopTracking now pid w).emittedProj = w.emittedProj ∧
        (stopTracking now pid w).emittedGlobal = w.emittedGlobal) ∧
      ((recordActivity now pid w).emittedProj = w.emittedProj ∧
        (recordActivity now pid w).emittedGlobal = w.emittedGlobal) ∧
      ((recordOutputActivity now pid w).emittedProj = w.emittedProj ∧
        (recordOutputActivity now pid w).emittedGlobal = w.emittedGlobal) := by
  refine ⟨startTracking_emits now pid w, stopTracking_emits_not_init now pid w h,
    recordActivity_emits now pid w, ?_⟩
  unfold recordOutputActivity
  repeat' split
  all_goals exact ⟨rfl, rfl⟩

/-- Claim C10, counterexample to the unamended claim: before init,
startTracking is not a no-op on the runtime tracking state — it registers
the interval. -/
theorem c10_preinit_counterexample :
    uninitWorld.initDone = false ∧
      (startTracking 5000 "p" uninitWorld).tracking ≠ uninitWorld.tracking := by
  refine ⟨by decide, by decide⟩

/-- Claim C10, witness: the amended theorem at a concrete pre-init state. -/
theorem c10_preinit_no_persist_witness :
    ((startTracking 5000 "p" uninitWorld).emittedProj = uninitWorld.emittedProj ∧
        (startTracking 5000 "p" uninitWorld).emittedGlobal = uninitWorld.emittedGlobal) ∧
      ((stopTracking 5000 "p" uninitWorld).emittedProj = uninitWorld.emittedProj ∧
        (stopTracking 5000 "p" uninitWorld).emittedGlobal = uninitWorld.emittedGlobal) ∧
      ((recordActivity 5000 "p" uninitWorld).emittedProj = uninitWorld.emittedProj ∧
        (recordActivity 5000 "p" uninitWorld).emittedGlobal = uninitWorld.emittedGlobal) ∧
      ((recordOutputActivity 5000 "p" uninitWorld).emittedProj = uninitWorld.emittedProj ∧
        (recordOutputActivity 5000 "p" uninitWorld).emittedGlobal
          = uninitWorld.emittedGlobal) :=
  c10_preinit_no_persist 5000 "p" uninitWorld (by decide)

/-! Helper lemmas: archive dedup and merge. -/

theorem mem_mapSet_elim {κ α : Type} [DecidableEq κ] {m : List (κ × α)} {k : κ}
    {v : α} {e : κ × α} (h : e ∈ mapSet m k v) : e ∈ m ∨ e = (k, v) := by
  induction m with
  | nil => simpa [mapSet] using h
  | cons f rest ih =>
    by_cases hf : f.1 = k
    · simp only [mapSet, if_pos hf] at h
      rcases List.mem_cons.mp h with h | h
      · exact Or.inr h
      · exact Or.inl (List.mem_cons_of_mem _ h)
    · simp only [mapSet, if_neg hf] at h
      rcases List.mem_cons.mp h with h | h
      · exact Or.inl (h ▸ List.mem_cons_self _ _)
      · rcases ih h with h | h
        · exact Or.inl (List.mem_cons_of_mem _ h)
        · exact Or.inr h

theorem dedupAppend_nil (l : List ASession) : dedupAppend [] l = l := by
  unfold dedupAppend
  simp

theorem sessionIds_dedupAppend (e i : List ASession) :
    sessionIds (dedupAppend e i)
      = sessionIds e ++ sessionIds (i.filter (fun s => decide (s.id ∉ sessionIds e))) := by
  unfold dedupAppend sessionIds
  simp

theorem dedupAppend_nodup {e i : List ASession}
    (he : (sessionIds e).Nodup) (hi : (sessionIds i).Nodup) :
    (sessionIds (dedupAppend e i)).Nodup := by
  rw [sessionIds_dedupAppend]
  refine List.Nodup.append he ?_ ?_
  · have hi2 : (i.map (fun s => s.id)).Nodup := hi
    exact ((List.filter_sublist i).map (fun s => s.id)).nodup hi2
  · intro a hae haf
    unfold sessionIds at haf
    rcases List.mem_map.mp haf with ⟨s, hs, hsid⟩
    rcases List.mem_filter.mp hs with ⟨_, hcond⟩
    exact (of_decide_eq_true hcond) (hsid ▸ hae)

theorem mem_ids_dedupAppend_left {e : List ASession} (i : List ASession)
    {a : String} (h : a ∈ sessionIds e) : a ∈ sessionIds (dedupAppend e i) := by
  rw [sessionIds_dedupAppend]
  exact List.mem_append_left _ h

theorem mem_ids_dedupAppend_right (e : List ASession) {i : List ASession}
    {s : ASession} (h : s ∈ i) : s.id ∈ sessionIds (dedupAppend e i) := by
  by_cases hin : s.id ∈ sessionIds e
  · exact mem_ids_dedupAppend_left i hin
  · rw [sessionIds_dedupAppend]
    refine List.mem_append_right _ ?_
    exact List.mem_map.mpr ⟨s, List.mem_filter.mpr ⟨h, decide_eq_true hin⟩, rfl⟩

theorem mergeProjEntry_get_ne (acc : List (String × ProjEntry))
    (pe : String × ProjEntry) {k : String} (h : k ≠ pe.1) :
    mapGet (mergeProjEntry acc pe) k = mapGet acc k := by
  unfold mergeProjEntry
  rw [mapGet_set_ne _ _ _ _ h]
  split
  · rw [mapGet_set_ne _ _ _ _ h]
  · rfl

theorem mergeProjEntry_get_fresh (acc : List (String × ProjEntry))
    (pe : String × ProjEntry) (h : mapGet acc pe.1 = none) :
    mapGet (mergeProjEntry acc pe) pe.1
      = some ⟨if pe.2.projectName ≠ "" then pe.2.projectName else "Unknown",
              pe.2.sessions⟩ := by
  unfold mergeProjEntry
  simp only [h, Option.isNone_none, if_true, mapGet_set_self, Option.getD_some,
    dedupAppend_nil]
  split <;> simp

theorem mergeProjEntry_inv {acc : List (String × ProjEntry)}
    {pe : String × ProjEntry}
    (hacc : ∀ e ∈ acc, (sessionIds e.2.sessions).Nodup)
    (hpe : (sessionIds pe.2.sessions).Nodup) :
    ∀ e ∈ mergeProjEntry acc pe, (sessionIds e.2.sessions).Nodup := by
  intro e he
  unfold mergeProjEntry at he
  cases hg : mapGet acc pe.1 with
  | none =>
    simp only [hg, Option.isNone_none, if_true, mapGet_set_self, Option.getD_some,
      dedupAppend_nil] at he
    rcases mem_mapSet_elim he with h1 | h1
    · rcases mem_mapSet_elim h1 with h2 | h2
      · exact hacc e h2
      · rw [h2]
        exact List.nodup_nil
    · subst h1
      split <;> exact hpe
  | some c =>
    have hc : (sessionIds c.sessions).Nodup := hacc (pe.1, c) (mapGet_mem hg)
    simp only [hg, Option.isNone_some, Bool.false_eq_true, if_false,
      Option.getD_some] at he
    rcases mem_mapSet_elim he with h1 | h1
    · exact hacc e h1
    · subst h1
      split <;> exact dedupAppend_nodup hc hpe

theorem mergeProjEntry_get_superset (acc : List (String × ProjEntry))
    (pe : String × ProjEntry) {k : String} {entry : ProjEntry}
    (h : mapGet acc k = some entry) :
    ∃ entry2, mapGet (mergeProjEntry acc pe) k = some entry2 ∧
      ∀ a ∈ sessionIds entry.sessions, a ∈ sessionIds entry2.sessions := by
  by_cases hk : k = pe.1
  · subst hk
    unfold mergeProjEntry
    simp only [h, Option.isNone_some, Bool.false_eq_true, if_false,
      Option.getD_some, mapGet_set_self]
    refine ⟨_, rfl, ?_⟩
    intro a ha
    split <;> exact mem_ids_dedupAppend_left _ ha
  · exact ⟨entry, by rw [mergeProjEntry_get_ne _ _ hk]; exact h, fun a ha => ha⟩

theorem mergeProjEntry_get_present (acc : List (String × ProjEntry))
    (pe : String × ProjEntry) :
    ∃ entry, mapGet (mergeProjEntry acc pe) pe.1 = some entry ∧
      ∀ s ∈ pe.2.sessions, s.id ∈ sessionIds entry.sessions := by
  cases hg : mapGet acc pe.1 with
  | none =>
    refine ⟨_, mergeProjEntry_get_fresh acc pe hg, ?_⟩
    intro s hs
    exact List.mem_map.mpr ⟨s, hs, rfl⟩
  | some c =>
    unfold mergeProjEntry
    simp only [hg, Option.isNone_some, Bool.false_eq_true, if_false,
      Option.getD_some, mapGet_set_self]
    refine ⟨_, rfl, ?_⟩
    intro s hs
    split <;> exact mem_ids_dedupAppend_right _ hs

theorem foldMerge_inv (P : List (String × ProjEntry)) :
    ∀ ps : List (String × ProjEntry),
    (∀ e ∈ ps, (sessionIds e.2.sessions).Nodup) →
    (∀ pe ∈ P, (sessionIds pe.2.sessions).Nodup) →
    ∀ e ∈ P.foldl mergeProjEntry ps, (sessionIds e.2.sessions).Nodup := by
  induction P with
  | nil => exact fun ps hps _ e he => hps e he
  | cons pe rest ih =>
    intro ps hps hP e he
    exact ih (mergeProjEntry ps pe)
      (mergeProjEntry_inv hps (hP pe (List.mem_cons_self _ _)))
      (fun q hq => hP q (List.mem_cons_of_mem _ hq)) e he

theorem foldMerge_get_notin (P : List (String × ProjEntry)) {k : String}
    (h : k ∉ P.map Prod.fst) :
    ∀ ps, mapGet (P.foldl mergeProjEntry ps) k = mapGet ps k := by
  induction P with
  | nil => exact fun ps => rfl
  | cons pe rest ih =>
    intro ps
    simp only [List.map_cons, List.mem_cons, not_or] at h
    rw [List.foldl_cons, ih h.2, mergeProjEntry_get_ne _ _ h.1]

theorem foldMerge_superset (P : List (String × ProjEntry)) :
    ∀ (ps : List (String × ProjEntry)) (k : String) (entry : ProjEntry),
    mapGet ps k = some entry →
    ∃ entry2, mapGet (P.foldl mergeProjEntry ps) k = some entry2 ∧
      ∀ a ∈ sessionIds entry.sessions, a ∈ sessionIds entry2.sessions := by
  induction P with
  | nil => exact fun ps k entry h => ⟨entry, h, fun a ha => ha⟩
  | cons pe rest ih =>
    intro ps k entry h
    rcases mergeProjEntry_get_superset ps pe h with ⟨e1, h1, hsub1⟩
    rcases ih (mergeProjEntry ps pe) k e1 h1 with ⟨e2, h2, hsub2⟩
    exact ⟨e2, h2, fun a ha => hsub2 a (hsub1 a ha)⟩

theorem foldMerge_present (P : List (String × ProjEntry)) :
    ∀ ps, ∀ pe ∈ P,
    ∃ entry, mapGet (P.foldl mergeProjEntry ps) pe.1 = some entry ∧
      ∀ s ∈ pe.2.sessions, s.id ∈ sessionIds entry.sessions := by
  induction P with
  | nil => intro ps pe hpe; simp at hpe
  | cons pe0 rest ih =>
    intro ps pe hpe
    rcases List.mem_cons.mp hpe with he | he
    · subst he
      rcases mergeProjEntry_get_present ps pe with ⟨e1, h1, hp1⟩
      rcases foldMerge_superset rest (mergeProjEntry ps pe) pe.1 e1 h1
        with ⟨e2, h2, hsub⟩
      exact ⟨e2, h2, fun s hs => hsub s.id (hp1 s hs)⟩
    · exact ih (mergeProjEntry ps pe0) pe he

theorem foldMerge_fresh (P : List (String × ProjEntry))
    (hkeys : (P.map Prod.fst).Nodup) :
    ∀ ps, (∀ pe ∈ P, mapGet ps pe.1 = none) → ∀ pe ∈ P,
    ∃ entry, mapGet (P.foldl mergeProjEntry ps) pe.1 = some entry ∧
      entry.sessions = pe.2.sessions := by
  induction P with
  | nil => intro ps _ pe hpe; simp at hpe
  | cons pe0 rest ih =>
    simp only [List.map_cons, List.nodup_cons] at hkeys
    intro ps hnone pe hpe
    rcases List.mem_cons.mp hpe with he | he
    · subst he
      rw [List.foldl_cons, foldMerge_get_notin rest hkeys.1,
        mergeProjEntry_get_fresh ps pe (hnone pe (List.mem_cons_self _ _))]
      exact ⟨_, rfl, rfl⟩
    · refine ih hkeys.2 (mergeProjEntry ps pe0) ?_ pe he
      intro pe2 hpe2
      have hne : pe2.1 ≠ pe0.1 := by
        intro hc
        exact hkeys.1 (hc ▸ List.mem_map.mpr ⟨pe2, hpe2, rfl⟩)
      rw [mergeProjEntry_get_ne _ _ hne]
      exact hnone pe2 (List.mem_cons_of_mem _ hpe2)

theorem appendToArchive_step (y m : Nat) (G : List ASession)
    (P : List (String × ProjEntry)) (iso : String) (st : ArchiveStore)
    (hdisk : ∀ a, mapGet st.disk (y, m) = some a → ArchiveInv a)
    (hG : (sessionIds G).Nodup)
    (hP : ∀ pe ∈ P, (sessionIds pe.2.sessions).Nodup) :
    ∀ a, mapGet (appendToArchive y m G P iso st).disk (y, m) = some a →
      ArchiveInv a ∧ (∀ s ∈ G, s.id ∈ sessionIds a.globalSessions) ∧
      (∀ pe ∈ P, ∀ s ∈ pe.2.sessions, ∃ entry,
        mapGet a.projectSessions pe.1 = some entry ∧
          s.id ∈ sessionIds entry.sessions) := by
  have hbase : ArchiveInv ((mapGet st.disk (y, m)).getD (createEmptyArchive y m iso)) := by
    cases hd : mapGet st.disk (y, m) with
    | none =>
      constructor
      · exact List.nodup_nil
      · intro e he
        simp [createEmptyArchive] at he
    | some b =>
      rw [Option.getD_some]
      exact hdisk b hd
  intro a ha
  unfold appendToArchive at ha
  dsimp only at ha
  rw [mapGet_set_self] at ha
  by_cases hGlen : G.length > 0
  · rw [if_pos hGlen] at ha
    obtain rfl := Option.some.inj ha
    refine ⟨⟨?_, ?_⟩, ?_, ?_⟩
    · exact dedupAppend_nodup hbase.1 hG
    · intro e he
      exact foldMerge_inv P _ (fun e2 he2 => hbase.2 e2 he2) hP e he
    · intro s hs
      exact mem_ids_dedupAppend_right _ hs
    · intro pe hpe s hs
      rcases foldMerge_present P _ pe hpe with ⟨entry, hent, hid⟩
      exact ⟨entry, hent, hid s hs⟩
  · rw [if_neg hGlen] at ha
    obtain rfl := Option.some.inj ha
    refine ⟨⟨hbase.1, ?_⟩, ?_, ?_⟩
    · intro e he
      exact foldMerge_inv P _ (fun e2 he2 => hbase.2 e2 he2) hP e he
    · intro s hs
      exact absurd (List.length_pos.mpr (List.ne_nil_of_mem hs)) hGlen
    · intro pe hpe s hs
      rcases foldMerge_present P _ pe hpe with ⟨entry, hent, hid⟩
      exact ⟨entry, hent, hid s hs⟩

theorem appendToArchive_fresh (y m : Nat) (G : List ASession)
    (P : List (String × ProjEntry)) (iso : String) (st : ArchiveStore)
    (hdisk : mapGet st.disk (y, m) = none) :
    ∀ a, mapGet (appendToArchive y m G P iso st).disk (y, m) = some a →
      a.globalSessions = G ∧
        a.projectSessions = P.foldl mergeProjEntry [] := by
  intro a ha
  unfold appendToArchive at ha
  dsimp only at ha
  rw [mapGet_set_self, hdisk] at ha
  simp only [Option.getD_none] at ha
  by_cases hGlen : G.length > 0
  · rw [if_pos hGlen] at ha
    obtain rfl := Option.some.inj ha
    constructor
    · show dedupAppend (createEmptyArchive y m iso).globalSessions G = G
      show dedupAppend [] G = G
      exact dedupAppend_nil G
    · rfl
  · rw [if_neg hGlen] at ha
    obtain rfl := Option.some.inj ha
    constructor
    · show (createEmptyArchive y m iso).globalSessions = G
      have : G = [] := by
        cases G with
        | nil => rfl
        | cons g gs => exact absurd (by simp) hGlen
      rw [this]
      rfl
    · rfl

theorem loadArchive_cache_miss (y m : Nat) (now : Int) (st2 : ArchiveStore)
    (hc : mapGet st2.cache (y, m) = none) :
    (loadArchive y m now st2).1 = mapGet st2.disk (y, m) := by
  unfold loadArchive
  dsimp only
  rw [hc]
  cases hd : mapGet st2.disk (y, m) <;> simp [hd]

/-- Claim C6, amended: starting from a month whose stored archive (if any)
satisfies the no-duplicate-id invariant, two successive appendToArchive
calls with the same G and P leave an archive in which every id of G occurs
exactly once in globalSessions and every id of P occurs exactly once in the
list of the corresponding entity — provided the ids inside G, and inside
each entity list of P, are themselves pairwise distinct.  In particular
appendToArchive preserves the invariant of no duplicate id per list. -/
theorem c6_archive_idempotent (y m : Nat) (G : List ASession)
    (P : List (String × ProjEntry)) (iso1 iso2 : String) (st : ArchiveStore)
    (hdisk : ∀ a, mapGet st.disk (y, m) = some a → ArchiveInv a)
    (hG : (sessionIds G).Nodup)
    (hP : ∀ pe ∈ P, (sessionIds pe.2.sessions).Nodup) :
    ∀ a, mapGet (appendToArchive y m G P iso2
        (appendToArchive y m G P iso1 st)).disk (y, m) = some a →
      ArchiveInv a ∧
        (∀ s ∈ G, (sessionIds a.globalSessions).count s.id = 1) ∧
        (∀ pe ∈ P, ∀ s ∈ pe.2.sessions, ∃ entry,
          mapGet a.projectSessions pe.1 = some entry ∧
            (sessionIds entry.sessions).count s.id = 1) := by
  intro a ha
  have hstep1 := appendToArchive_step y m G P iso1 st hdisk hG hP
  have hstep2 := appendToArchive_step y m G P iso2
    (appendToArchive y m G P iso1 st) (fun b hb => (hstep1 b hb).1) hG hP
  rcases hstep2 a ha with ⟨hinv, hglob, hproj⟩
  refine ⟨hinv, ?_, ?_⟩
  · exact fun s hs => List.count_eq_one_of_mem hinv.1 (hglob s hs)
  · intro pe hpe s hs
    rcases hproj pe hpe s hs with ⟨entry, hent, hid⟩
    exact ⟨entry, hent, List.count_eq_one_of_mem
      (hinv.2 (pe.1, entry) (mapGet_mem hent)) hid⟩

/-- Claim C7, amended: for a month with no pre-existing archive, after
appendToArchive(y, m, G, P) a loadArchive(y, m) — whose cache entry for the
month was just invalidated by the append, so the read goes to disk —
returns an archive containing every session of G exactly once in
globalSessions and, for every entity of P, exactly the session list handed
in (each session exactly once) — provided the ids inside G and inside each
entity list of P are pairwise distinct. -/
theorem c7_archive_round_trip (y m : Nat) (G : List ASession)
    (P : List (String × ProjEntry)) (iso : String) (now : Int) (st : ArchiveStore)
    (hdisk : mapGet st.disk (y, m) = none)
    (hcache : (st.cache.map Prod.fst).Nodup)
    (hkeys : (P.map Prod.fst).Nodup)
    (hG : (sessionIds G).Nodup)
    (hP : ∀ pe ∈ P, (sessionIds pe.2.sessions).Nodup) :
    ∃ A, (loadArchive y m now (appendToArchive y m G P iso st)).1 = some A ∧
      (∀ s ∈ G, A.globalSessions.count s = 1) ∧
      (∀ pe ∈ P, ∃ entry, mapGet A.projectSessions pe.1 = some entry ∧
        entry.sessions = pe.2.sessions ∧
          ∀ s ∈ pe.2.sessions, entry.sessions.count s = 1) := by
  have hc2 : mapGet (appendToArchive y m G P iso st).cache (y, m) = none :=
    mapGet_delete_self st.cache (y, m) hcache
  have hload := loadArchive_cache_miss y m now (appendToArchive y m G P iso st) hc2
  obtain ⟨A, hA⟩ : ∃ A, mapGet (appendToArchive y m G P iso st).disk (y, m) = some A :=
    ⟨_, mapGet_set_self _ _ _⟩
  have hfresh := appendToArchive_fresh y m G P iso st hdisk A hA
  refine ⟨A, by rw [hload, hA], ?_, ?_⟩
  · rw [hfresh.1]
    exact fun s hs => List.count_eq_one_of_mem (List.Nodup.of_map _ hG) hs
  · intro pe hpe
    rcases foldMerge_fresh P hkeys [] (fun pe2 _ => rfl) pe hpe
      with ⟨entry, hent, hsess⟩
    refine ⟨entry, by rw [hfresh.2]; exact hent, hsess, ?_⟩
    intro s hs
    rw [hsess]
    exact List.count_eq_one_of_mem (List.Nodup.of_map _ (hP pe hpe)) hs

/-- Claim C6, counterexample to the unamended claim: appending a global
list that itself contains the same id twice (twice the same session), twice
in a row into an empty store, leaves an archive whose globalSessions holds
the id twice — the dedup set is computed once per call, before the push
loop, so duplicates inside one batch are all pushed. -/
theorem c6_archive_idempotent_counterexample :
    ((mapGet (appendToArchive 2025 1 [⟨"a", "x", "y", 1⟩, ⟨"a", "x", "y", 1⟩] [] "t2"
        (appendToArchive 2025 1 [⟨"a", "x", "y", 1⟩, ⟨"a", "x", "y", 1⟩] [] "t1"
          ⟨[], []⟩)).disk (2025, 1)).map
      (fun a => (sessionIds a.globalSessions).count "a")) = some 2 := by
  decide

/-- Claim C7, counterexample to the unamended claim: appending a global
list holding the same session twice into an empty store and loading the
month back returns an archive in which that session occurs twice, not
once. -/
theorem c7_archive_round_trip_counterexample :
    ((loadArchive 2025 1 0 (appendToArchive 2025 1
        [⟨"a", "x", "y", 1⟩, ⟨"a", "x", "y", 1⟩] [] "t" ⟨[], []⟩)).1).map
      (fun a => a.globalSessions.count ⟨"a", "x", "y", 1⟩) = some 2 := by
  decide

/-- Claim C6, witness: the amended theorem on an empty store with one
global session and one entity holding one session, appended twice. -/
theorem c6_archive_idempotent_witness :
    ArchiveInv (⟨1, "2025-02", "t1", "t2", [⟨"a", "x", "y", 1⟩],
        [("p", ⟨"N", [⟨"b", "x", "y", 2⟩]⟩)]⟩ : Archive) ∧
      (sessionIds (⟨1, "2025-02", "t1", "t2", [⟨"a", "x", "y", 1⟩],
        [("p", ⟨"N", [⟨"b", "x", "y", 2⟩]⟩)]⟩ : Archive).globalSessions).count "a" = 1 ∧
      (∃ entry, mapGet (⟨1, "2025-02", "t1", "t2", [⟨"a", "x", "y", 1⟩],
          [("p", ⟨"N", [⟨"b", "x", "y", 2⟩]⟩)]⟩ : Archive).projectSessions "p"
            = some entry ∧
        (sessionIds entry.sessions).count "b" = 1) := by
  have h := c6_archive_idempotent 2025 1 [⟨"a", "x", "y", 1⟩]
    [("p", ⟨"N", [⟨"b", "x", "y", 2⟩]⟩)] "t1" "t2" ⟨[], []⟩
    (fun a ha => by simp [mapGet] at ha) (by decide) (by decide)
    ⟨1, "2025-02", "t1", "t2", [⟨"a", "x", "y", 1⟩],
      [("p", ⟨"N", [⟨"b", "x", "y", 2⟩]⟩)]⟩ (by decide)
  refine ⟨h.1, h.2.1 ⟨"a", "x", "y", 1⟩ (by decide), ?_⟩
  rcases h.2.2 ("p", ⟨"N", [⟨"b", "x", "y", 2⟩]⟩) (by decide)
      ⟨"b", "x", "y", 2⟩ (by decide) with ⟨entry, hent, hcount⟩
  exact ⟨entry, hent, hcount⟩

/-- Claim C7, witness: the amended theorem on an empty store with one
global session and one entity holding one session. -/
theorem c7_archive_round_trip_witness :
    ∃ A, (loadArchive 2025 1 99 (appendToArchive 2025 1 [⟨"a", "x", "y", 1⟩]
        [("p", ⟨"N", [⟨"b", "x", "y", 2⟩]⟩)] "t" ⟨[], []⟩)).1 = some A ∧
      (∀ s ∈ [(⟨"a", "x", "y", 1⟩ : ASession)], A.globalSessions.count s = 1) ∧
      (∀ pe ∈ [("p", (⟨"N", [⟨"b", "x", "y", 2⟩]⟩ : ProjEntry))],
        ∃ entry, mapGet A.projectSessions pe.1 = some entry ∧
          entry.sessions = pe.2.sessions ∧
            ∀ s ∈ pe.2.sessions, entry.sessions.count s = 1) :=
  c7_archive_round_trip 2025 1 [⟨"a", "x", "y", 1⟩]
    [("p", ⟨"N", [⟨"b", "x", "y", 2⟩]⟩)] "t" 99 ⟨[], []⟩
    rfl (by decide) (by decide) (by decide) (by decide)

/-! Helper lemmas: the sanitizer session filter. -/

theorem validSession_props (parseDate : String → Option Int) (s : Option RawSession)
    (h : validSession parseDate s = true) :
    ∃ rs, s = some rs ∧
      (∃ n : Int, rs.duration = .int n ∧ 0 < n ∧ n ≤ 86400000) ∧
      (∃ stp enp : Int, parseDate (rs.startTime.getD "") = some stp ∧
        parseDate (rs.endTime.getD "") = some enp ∧ stp ≤ enp) := by
  unfold validSession at h
  split at h
  · exact absurd h (by simp)
  · rename_i rs
    split at h
    · exact absurd h (by simp)
    · split at h
      · exact absurd h (by simp)
      · split at h
        · exact absurd h (by simp)
        · rename_i htruthy hdur hmax
          refine ⟨rs, rfl, ?_, ?_⟩
          · rcases hd : rs.duration with _ | _ | _ | n
            all_goals rw [hd] at hdur hmax
            · exact absurd (by decide) hdur
            · exact absurd (by decide) hdur
            · exact absurd (by decide) hdur
            · refine ⟨n, rfl, ?_, ?_⟩
              · have hn : ¬(n ≤ 0) := fun hle =>
                  hdur (by simp [JsNum.isFinite, JsNum.le, hle])
                omega
              · have hn : ¬(86400000 < n) := fun hlt =>
                  hmax (by simp [JsNum.lt, maxReasonableDuration, hlt])
                omega
          · split at h
            · rename_i stp enp hst hen
              exact ⟨stp, enp, hst, hen, of_decide_eq_true h⟩
            · exact absurd h (by simp)

theorem sanitizeTracking_sessions (parseDate : String → Option Int) (now : Int)
    (t : ProjectTracking) :
    ∀ l, (sanitizeTracking parseDate now t).sessions = some l →
      ∀ s ∈ l, validSession parseDate s = true := by
  intro l hl
  unfold sanitizeTracking at hl
  dsimp only at hl
  repeat' split at hl
  all_goals
    obtain rfl := Option.some.inj hl
    intro s hs
    first
      | exact (List.mem_filter.mp hs).2
      | simp at hs

theorem sanitizeGlobal_sessions (parseDate : String → Option Int)
    (g : GlobalTracking) :
    ∀ l, (sanitizeGlobal parseDate g).sessions = some l →
      ∀ s ∈ l, validSession parseDate s = true := by
  intro l hl
  unfold sanitizeGlobal at hl
  dsimp only at hl
  repeat' split at hl
  all_goals
    obtain rfl := Option.some.inj hl
    intro s hs
    first
      | exact (List.mem_filter.mp hs).2
      | simp at hs

/-- Claim C8: after the startup sanitizer, every session left in any
project list and in the global list has a finite duration with
0 < duration ≤ 24 h, both timestamps parse, and end is not before start;
sessions violating any of this are not in the filtered lists (the
conclusion characterises every member of the surviving lists, so a violator
cannot be among them). -/
theorem c8_sanitizer_session_bounds (parseDate : String → Option Int) (now : Int)
    (ds : Dataset) :
    (∀ p ∈ (sanitizeTimeTrackingData parseDate now ds).projects,
      ∀ t, p.timeTracking = some t → ∀ l, t.sessions = some l →
      ∀ s ∈ l, ∃ rs, s = some rs ∧
        (∃ n : Int, rs.duration = .int n ∧ 0 < n ∧ n ≤ 86400000) ∧
        (∃ stp enp : Int, parseDate (rs.startTime.getD "") = some stp ∧
          parseDate (rs.endTime.getD "") = some enp ∧ stp ≤ enp)) ∧
      (∀ g, (sanitizeTimeTrackingData parseDate now ds).globalTimeTracking = some g →
        ∀ l, g.sessions = some l →
        ∀ s ∈ l, ∃ rs, s = some rs ∧
          (∃ n : Int, rs.duration = .int n ∧ 0 < n ∧ n ≤ 86400000) ∧
          (∃ stp enp : Int, parseDate (rs.startTime.getD "") = some stp ∧
            parseDate (rs.endTime.getD "") = some enp ∧ stp ≤ enp)) := by
  constructor
  · intro p hp t ht l hl s hs
    rcases List.mem_map.mp hp with ⟨p0, hp0, rfl⟩
    cases hT : p0.timeTracking with
    | none => simp [hT] at ht
    | some t0 =>
      simp only [hT] at ht
      obtain rfl := Option.some.inj ht
      exact validSession_props parseDate s
        (sanitizeTracking_sessions parseDate now t0 l hl s hs)
  · intro g hg l hl s hs
    rcases Option.map_eq_some'.mp hg with ⟨g0, hg0, rfl⟩
    exact validSession_props parseDate s
      (sanitizeGlobal_sessions parseDate g0 l hl s hs)

/-- Claim C8, witness: a dataset whose single project holds one valid
session (duration 1000 ms, parseable bounds in order) and one invalid one
(negative duration); the survivor satisfies all the bounds. -/
theorem c8_sanitizer_session_bounds_witness :
    ∃ rs, (some (⟨"id1", some "S", some "E", JsNum.int 1000⟩ : RawSession))
        = some rs ∧
      (∃ n : Int, rs.duration = .int n ∧ 0 < n ∧ n ≤ 86400000) ∧
      (∃ stp enp : Int,
        (fun str => if str = "S" then some (100 : Int)
          else if str = "E" then some 200 else none) (rs.startTime.getD "")
            = some stp ∧
        (fun str => if str = "S" then some (100 : Int)
          else if str = "E" then some 200 else none) (rs.endTime.getD "")
            = some enp ∧ stp ≤ enp) :=
  (c8_sanitizer_session_bounds
      (fun str => if str = "S" then some (100 : Int)
        else if str = "E" then some 200 else none) 0
      ⟨[⟨"pid", "nm", some ⟨.int 0, .int 0, none,
          some [some ⟨"id1", some "S", some "E", .int 1000⟩,
                some ⟨"id2", some "S", some "E", .int (-5)⟩]⟩⟩], none⟩).1
    ⟨"pid", "nm", some ⟨.int 0, .int 0, none,
        some [some ⟨"id1", some "S", some "E", .int 1000⟩]⟩⟩
    (by decide)
    ⟨.int 0, .int 0, none, some [some ⟨"id1", some "S", some "E", .int 1000⟩]⟩
    rfl
    [some ⟨"id1", some "S", some "E", .int 1000⟩]
    rfl
    (some ⟨"id1", some "S", some "E", .int 1000⟩)
    (by decide)

/-- Claim C9, amended: the startup sanitizer nulls lastActiveDate (and
zeroes todayTime) when it is more than one day in the future only for each
project ProjectTimeTracking; the GlobalTimeTracking block of the sanitizer
never touches lastActiveDate, whatever its value. -/
theorem c9_future_lastActiveDate (parseDate : String → Option Int) :
    (∀ (now ts : Int) (t : ProjectTracking) (d : String),
        t.lastActiveDate = some d → d ≠ "" →
        parseDate (d ++ "T00:00:00") = some ts → ts > now + 86400000 →
        (sanitizeTracking parseDate now t).lastActiveDate = none ∧
          (sanitizeTracking parseDate now t).todayTime = JsNum.int 0) ∧
      (∀ g : GlobalTracking,
        (sanitizeGlobal parseDate g).lastActiveDate = g.lastActiveDate) := by
  constructor
  · intro now ts t d hd hne hparse hfut
    constructor <;>
      · unfold sanitizeTracking
        dsimp only
        repeat' split
        all_goals simp_all [strTruthy]
        all_goals omega
  · intro g
    unfold sanitizeGlobal
    dsimp only
    repeat' split
    all_goals rfl

/-- Claim C9, counterexample to the unamended claim: a global tracking
record with lastActiveDate far in the future (every date parses to a
timestamp more than one day past now = 0) survives the sanitizer with its
future lastActiveDate intact. -/
theorem c9_future_lastActiveDate_counterexample :
    ((sanitizeTimeTrackingData (fun _ => some 99999999999999) 0
        ⟨[], some ⟨.int 0, .int 0, .int 0, .int 0, some "3000-01-01",
          none, none, some []⟩⟩).globalTimeTracking).map
      (fun g => g.lastActiveDate) = some (some "3000-01-01") ∧
      (99999999999999 : Int) > 0 + 86400000 := by
  refine ⟨by decide, by decide⟩

/-- Claim C9, witness: the amended theorem at a concrete project record
with a far-future lastActiveDate, and a concrete global record. -/
theorem c9_future_lastActiveDate_witness :
    ((sanitizeTracking (fun _ => some 99999999999999) 0
        ⟨.int 5, .int 7, some "3000-01-01", some []⟩).lastActiveDate = none ∧
      (sanitizeTracking (fun _ => some 99999999999999) 0
        ⟨.int 5, .int 7, some "3000-01-01", some []⟩).todayTime = JsNum.int 0) ∧
      (sanitizeGlobal (fun _ => some 99999999999999)
          ⟨.int 0, .int 0, .int 0, .int 0, some "3000-01-01",
            none, none, some []⟩).lastActiveDate
        = (⟨.int 0, .int 0, .int 0, .int 0, some "3000-01-01",
            none, none, some []⟩ : GlobalTracking).lastActiveDate :=
  ⟨(c9_future_lastActiveDate (fun _ => some 99999999999999)).1 0 99999999999999
      ⟨.int 5, .int 7, some "3000-01-01", some []⟩ "3000-01-01"
      rfl (by decide) rfl (by decide),
    (c9_future_lastActiveDate (fun _ => some 99999999999999)).2
      ⟨.int 0, .int 0, .int 0, .int 0, some "3000-01-01", none, none, some []⟩⟩

end CT
